import Mathlib

/-!
Verification of the agentkit-phase1 command pipeline.

This file gives a shallow embedding of the command-execution control plane:
the hash-chained action ledger and command processing of
`src/agents/command-poller/command_poller.py`, the orchestrator pipeline of
`src/mcp/orchestrator.py` (policy gate, risk validation, judge consensus,
tool dispatch), the circuit breaker, and the command-line parser.  The SHA-256
hash is abstracted as a function parameter `H : String → String`; theorems that
need collision-freeness take `Function.Injective H` as a hypothesis.  External
effects (the MCP request, the risk validator, the judge panel, the tools) are
modelled as explicit function-valued environment fields, and every embedded
operation additionally reports how many times each external capability was
invoked.
-/

namespace AgentKit

/-! ### Ledger (NotionClient.append_ledger, command_poller.py lines 252-263)

The Python code keeps `self.last_hash` (initially `None`, treated as the
string "genesis"), builds `entry_data = f"{action_id}:{command}:{result}:{last_hash}"`,
and stores `sha256(entry_data)` as the new hash.  `latency_ms`, `rationale`
and `signed_by` are accepted by `append_ledger` but do not enter `entry_data`.
-/

/-- The genesis previous-hash constant (`self.last_hash = "genesis"`). -/
def genesisHash : String := "genesis"

/-- `entry_data = f"{action_id}:{command}:{result}:{last_hash}"`. -/
def entryData (actionId command result prev : String) : String :=
  actionId ++ ":" ++ command ++ ":" ++ result ++ ":" ++ prev

/-- The arguments accepted by `append_ledger`. -/
structure LedgerInput where
  actionId : String
  command : String
  result : String
  latencyMs : Nat
  rationale : String
  signer : String
deriving DecidableEq

/-- A stored ledger entry: the `append_ledger` arguments plus the hash that
was computed and stored for the entry. -/
structure LedgerEntry where
  actionId : String
  command : String
  result : String
  latencyMs : Nat
  rationale : String
  signer : String
  storedHash : String
deriving DecidableEq

/-- The hash computed by one `append_ledger` call: `H` applied to
`entry_data`, where the previous hash defaults to `"genesis"` when the
ledger is fresh (`last_hash is None`). -/
def appendLedger (H : String → String) (lastHash : Option String)
    (inp : LedgerInput) : String :=
  H (entryData inp.actionId inp.command inp.result (lastHash.getD genesisHash))

/-- The entry list produced by a sequence of `append_ledger` calls,
threading `last_hash` exactly as the Python object state does. -/
def mkLedger (H : String → String) : Option String → List LedgerInput → List LedgerEntry
  | _, [] => []
  | last, i :: is =>
    let h := appendLedger H last i
    { actionId := i.actionId, command := i.command, result := i.result,
      latencyMs := i.latencyMs, rationale := i.rationale, signer := i.signer,
      storedHash := h } :: mkLedger H (some h) is

/-- Recompute the hash chain of a stored entry sequence from a given previous
hash: each recomputed hash feeds into the next entry's `entry_data`. -/
def chainHashes (H : String → String) : String → List LedgerEntry → List String
  | _, [] => []
  | prev, e :: es =>
    let h := H (entryData e.actionId e.command e.result prev)
    h :: chainHashes H h es

/-- An entry sequence is chain-valid when recomputation from genesis
reproduces every stored hash. -/
def chainValid (H : String → String) (es : List LedgerEntry) : Prop :=
  es.map LedgerEntry.storedHash = chainHashes H genesisHash es

instance (H : String → String) (es : List LedgerEntry) : Decidable (chainValid H es) := by
  unfold chainValid; infer_instance

theorem chainHashes_length (H : String → String) (prev : String)
    (es : List LedgerEntry) : (chainHashes H prev es).length = es.length := by
  induction es generalizing prev with
  | nil => rfl
  | cons e es ih => simp [chainHashes, ih]

theorem entryData_inj_result {a c r r' p : String}
    (h : entryData a c r p = entryData a c r' p) : r = r' := by
  have h2 := congrArg String.data h
  simp only [entryData, String.data_append, List.append_assoc] at h2
  have h3 := List.append_cancel_left (List.append_cancel_left
    (List.append_cancel_left (List.append_cancel_left h2)))
  exact String.ext (List.append_cancel_right h3)

theorem entryData_inj_prev {a c r p p' : String}
    (h : entryData a c r p = entryData a c r p') : p = p' := by
  have h2 := congrArg String.data h
  simp only [entryData, String.data_append, List.append_assoc] at h2
  have h3 := List.append_cancel_left (List.append_cancel_left
    (List.append_cancel_left (List.append_cancel_left
      (List.append_cancel_left (List.append_cancel_left h2)))))
  exact String.ext h3

/-- Recomputing the same entries from two different previous hashes yields
pointwise different hashes, assuming the hash function is injective. -/
theorem chainHashes_ne_of_prev_ne {H : String → String}
    (hInj : Function.Injective H) :
    ∀ (es : List LedgerEntry) (p p' : String), p ≠ p' →
      List.Forall₂ (· ≠ ·) (chainHashes H p es) (chainHashes H p' es)
  | [], _, _, _ => List.Forall₂.nil
  | e :: es, p, p', hne => by
    have hhead : H (entryData e.actionId e.command e.result p) ≠
        H (entryData e.actionId e.command e.result p') :=
      fun he => hne (entryData_inj_prev (hInj he))
    exact List.Forall₂.cons hhead (chainHashes_ne_of_prev_ne hInj es _ _ hhead)

theorem chainHashes_append (H : String → String) (p : String)
    (xs ys : List LedgerEntry) :
    chainHashes H p (xs ++ ys) =
      chainHashes H p xs ++ chainHashes H ((chainHashes H p xs).getLastD p) ys := by
  induction xs generalizing p with
  | nil => rfl
  | cons x xs ih =>
    simp only [List.cons_append, chainHashes, List.append_eq, ih, List.getLastD_cons]

theorem mkLedger_map_storedHash (H : String → String) :
    ∀ (inputs : List LedgerInput) (last : Option String),
      (mkLedger H last inputs).map LedgerEntry.storedHash =
        chainHashes H (last.getD genesisHash) (mkLedger H last inputs)
  | [], _ => rfl
  | i :: is, last => by
    simp only [mkLedger, List.map_cons, chainHashes, appendLedger]
    exact congrArg (List.cons _) (mkLedger_map_storedHash H is (some _))

/-- Claim C2: every stored entry hash is `H(action_id:command:result:prev)`
chained from the genesis constant, so recomputing the chain from genesis over
an unmodified `append_ledger`-produced sequence reproduces every stored hash;
and if any single entry's `result` is changed while the stored hashes are
kept, recomputation from genesis fails to reproduce the stored hash of that
entry and of every later entry (assuming the hash function is injective). -/
theorem claim_c2 (H : String → String) (hInj : Function.Injective H) :
    (∀ inputs : List LedgerInput, chainValid H (mkLedger H none inputs)) ∧
    (∀ (pre post : List LedgerEntry) (e : LedgerEntry) (r' : String),
      r' ≠ e.result →
      chainValid H (pre ++ e :: post) →
      List.Forall₂ (· ≠ ·)
        ((chainHashes H genesisHash (pre ++ { e with result := r' } :: post)).drop pre.length)
        (((pre ++ e :: post).map LedgerEntry.storedHash).drop pre.length)) := by
  constructor
  · intro inputs
    unfold chainValid
    simpa using mkLedger_map_storedHash H inputs none
  · intro pre post e r' hne hv
    unfold chainValid at hv
    rw [hv]
    rw [chainHashes_append, chainHashes_append]
    have hlen : pre.length = (chainHashes H genesisHash pre).length :=
      (chainHashes_length H genesisHash pre).symm
    rw [hlen, List.drop_left, List.drop_left]
    set p0 := (chainHashes H genesisHash pre).getLastD genesisHash with hp0
    simp only [chainHashes]
    have hhead : H (entryData e.actionId e.command r' p0) ≠
        H (entryData e.actionId e.command e.result p0) :=
      fun he => hne (entryData_inj_result (hInj he))
    exact List.Forall₂.cons hhead (chainHashes_ne_of_prev_ne hInj post _ _ hhead)

/-- Concrete two-entry chain used to witness C2 with the identity hash. -/
def c2EntryA : LedgerEntry :=
  { actionId := "a1", command := "c1", result := "SUCCESS", latencyMs := 5,
    rationale := "ok", signer := "command_poller",
    storedHash := "a1:c1:SUCCESS:genesis" }

/-- Second concrete entry for the C2 witness chain. -/
def c2EntryB : LedgerEntry :=
  { actionId := "a2", command := "c2", result := "SUCCESS", latencyMs := 7,
    rationale := "ok", signer := "command_poller",
    storedHash := "a2:c2:SUCCESS:a1:c1:SUCCESS:genesis" }

/-- Witness for C2: the identity hash is injective, the concrete two-entry
chain is chain-valid, tampering the first entry's result to "FAILED" changes
it, and the tampered recomputation misses both stored hashes. -/
theorem claim_c2_witness :
    Function.Injective (fun s : String => s) ∧
    ("FAILED" : String) ≠ c2EntryA.result ∧
    chainValid (fun s => s) ([] ++ c2EntryA :: [c2EntryB]) ∧
    List.Forall₂ (· ≠ ·)
      ((chainHashes (fun s => s) genesisHash
          ([] ++ { c2EntryA with result := "FAILED" } :: [c2EntryB])).drop
        ([] : List LedgerEntry).length)
      ((([] ++ c2EntryA :: [c2EntryB]).map LedgerEntry.storedHash).drop
        ([] : List LedgerEntry).length) :=
  ⟨fun _ _ h => h, by decide, by decide,
    (claim_c2 (fun s => s) (fun _ _ h => h)).2 [] [c2EntryB] c2EntryA "FAILED"
      (by decide) (by decide)⟩

/-- Claim C10: the ledger entry hash is a function of only the action id,
the command text, the result, and the previous hash: two `append_ledger`
calls agreeing on those four values but differing in `latency_ms`,
`rationale`, or `signed_by` return equal hashes, and recomputing the hash
chain is unaffected by modifying those three fields of any stored entries. -/
theorem claim_c10 :
    (∀ (H : String → String) (last : Option String) (a c r : String)
       (l₁ l₂ : Nat) (rat₁ rat₂ s₁ s₂ : String),
       appendLedger H last ⟨a, c, r, l₁, rat₁, s₁⟩ =
         appendLedger H last ⟨a, c, r, l₂, rat₂, s₂⟩) ∧
    (∀ (H : String → String) (prev : String) (es : List LedgerEntry)
       (f : LedgerEntry → Nat) (g h : LedgerEntry → String),
       chainHashes H prev
           (es.map fun e => { e with latencyMs := f e, rationale := g e, signer := h e }) =
         chainHashes H prev es) := by
  refine ⟨fun _ _ _ _ _ _ _ _ _ _ _ => rfl, fun H prev es f g h => ?_⟩
  induction es generalizing prev with
  | nil => rfl
  | cons e es ih => simp only [List.map_cons, chainHashes, ih]

/-! ### Orchestrator (src/mcp/orchestrator.py)

`ActionOrchestrator.execute_action` runs: policy pre-check, optional Groq
risk validation, judge evaluation for MEDIUM/HIGH severity, then tool
dispatch.  The Groq validator, the Mistral judge panel and the tools are
external capabilities; they are modelled as function-valued fields of
`OrchEnv` (`none` when the corresponding API key is absent).  Alongside the
result, the embedding reports how many times each capability was invoked. -/

/-- Severity enum shared by the poller and the orchestrator. -/
inductive Severity
  | LOW
  | MEDIUM
  | HIGH
deriving DecidableEq

/-- `ValidationResult` dataclass (risk scores are modelled as rationals). -/
structure ValidationResult where
  riskScore : Rat
  shortSummary : String
  compressedProof : String
  passed : Bool
deriving DecidableEq

/-- `JudgeDecision` dataclass. -/
structure JudgeDecision where
  judgeId : String
  score : Rat
  rationale : String
  approved : Bool
deriving DecidableEq

/-- The result dict built by `execute_action`.  `status` holds the
`ActionResult` enum value as a string, exactly as the dict does; the
`timestamp` field is external wall-clock data and is omitted. -/
structure OrchResult where
  actionId : String
  commandType : String
  status : String
  rationale : String
  validation : Option ValidationResult
  judgeDecisions : Option (List JudgeDecision)
  toolResult : Option String
deriving DecidableEq

/-- Invocation counts of the three external capabilities during one
`execute_action` call. -/
structure OrchTrace where
  validatorCalls : Nat
  judgeCalls : Nat
  toolCalls : Nat
deriving DecidableEq

/-- One row of the `default_policies` table in `_get_policies_for_command`
(heterogeneous dict values become optional typed fields). -/
structure Policy where
  action : Option String := none
  reason : Option String := none
  description : Option String := none
  allowed : Option Bool := none
  requireJudgeApproval : Option Bool := none
  maxSpend : Option Nat := none
  allowedChannels : List String := []
  maxFrequencyPerHour : Option Nat := none
deriving DecidableEq

/-- `_get_policies_for_command`: the static policy table, `{}` for unknown
command types. -/
def getPoliciesForCommand : String → Policy
  | "START_CAMPAIGN" =>
    { maxSpend := some 10000, allowedChannels := ["linkedin", "meta", "mailchimp"] }
  | "CHECK_INTEGRATION_STATUS" =>
    { description := some "Low-risk read-only operation. Always allowed.",
      allowed := some true }
  | "REFRESH_TOKEN" =>
    { description := some "Medium-risk state-changing operation. Requires judge approval.",
      requireJudgeApproval := some true, maxFrequencyPerHour := some 5 }
  | "CONNECT_INTEGRATION" =>
    { description := some "High-risk operation creating new permissions. Must be blocked for human review.",
      action := some "BLOCK",
      reason := some "New integrations require manual security and permissions review." }
  | _ => {}

/-- The external capabilities of the orchestrator: risk validator and judge
panel (present only when the API key is configured) and the underlying tool
effects keyed by command type. -/
structure OrchEnv where
  validator : Option (String → List (String × String) → ValidationResult)
  judge : Option (String → List (String × String) → ValidationResult → List JudgeDecision)
  tool : String → List (String × String) → Except String String

/-- Membership in `self.tool_map` (the five wired tool functions). -/
def toolMapKnown (ct : String) : Bool :=
  ct == "SCAN_SITE" || ct == "START_CAMPAIGN" || ct == "CHECK_INTEGRATION_STATUS" ||
  ct == "REFRESH_TOKEN" || ct == "CONNECT_INTEGRATION"

/-- Step 4 of `execute_action`: tool lookup and dispatch.  A missing
`tool_map` entry raises `ValueError` which the surrounding `except` turns
into a FAILED result; a tool exception likewise. -/
def executeToolPhase (env : OrchEnv) (base : OrchResult) (ct : String)
    (params : List (String × String)) (vCalls jCalls : Nat) : OrchResult × OrchTrace :=
  if toolMapKnown ct then
    match env.tool ct params with
    | .ok tr =>
      ({ base with
          status := "SUCCESS", toolResult := some tr,
          rationale := (if base.rationale = "" then "Action completed successfully"
                        else base.rationale) },
       ⟨vCalls, jCalls, 1⟩)
    | .error m =>
      ({ base with
          status := "FAILED", rationale := "Execution error: " ++ m },
       ⟨vCalls, jCalls, 1⟩)
  else
    ({ base with
        status := "FAILED",
        rationale := "Execution error: Unknown command type: " ++ ct },
     ⟨vCalls, jCalls, 0⟩)

/-- Step 3 of `execute_action`: the judge panel is consulted only when
severity is MEDIUM or HIGH, a judge is configured, and a validation result
exists.  `approved_count < len(judge_decisions) / 2` under Python real
division is `2 * approved_count < len`. -/
def executeJudgePhase (env : OrchEnv) (base : OrchResult) (ct : String)
    (params : List (String × String)) (severity : Severity)
    (validation : Option ValidationResult) (vCalls : Nat) : OrchResult × OrchTrace :=
  if severity = Severity.MEDIUM ∨ severity = Severity.HIGH then
    match env.judge, validation with
    | some jf, some v =>
      let ds := jf ct params v
      let base := { base with judgeDecisions := some ds }
      if 2 * ds.countP (fun d => d.approved) < ds.length then
        ({ base with
            status := "NEEDS_APPROVAL",
            rationale := "Majority judge approval required" }, ⟨vCalls, 1, 0⟩)
      else
        executeToolPhase env base ct params vCalls 1
    | _, _ => executeToolPhase env base ct params vCalls 0
  else
    executeToolPhase env base ct params vCalls 0

/-- `ActionOrchestrator.execute_action` (orchestrator.py lines 258-324). -/
def executeAction (env : OrchEnv) (actionId commandType : String)
    (params : List (String × String)) (severity : Severity) : OrchResult × OrchTrace :=
  let base : OrchResult :=
    { actionId := actionId, commandType := commandType, status := "FAILED",
      rationale := "", validation := none, judgeDecisions := none, toolResult := none }
  let policyRules := getPoliciesForCommand commandType
  if policyRules.action = some "BLOCK" then
    ({ base with
        status := "BLOCKED",
        rationale := "Action blocked by policy: " ++ policyRules.reason.getD "None" },
     ⟨0, 0, 0⟩)
  else
    match env.validator with
    | some vf =>
      let v := vf commandType params
      let base := { base with validation := some v }
      if !v.passed then
        ({ base with
            status := "BLOCKED",
            rationale := "Failed validation: " ++ v.shortSummary }, ⟨1, 0, 0⟩)
      else
        executeJudgePhase env base commandType params severity (some v) 1
    | none => executeJudgePhase env base commandType params severity none 0

/-- The four `ActionResult` statuses of orchestrator.py. -/
def actionResultStatuses : List String :=
  ["SUCCESS", "FAILED", "BLOCKED", "NEEDS_APPROVAL"]

theorem executeToolPhase_status_mem (env : OrchEnv) (base : OrchResult) (ct : String)
    (params : List (String × String)) (v j : Nat) :
    (executeToolPhase env base ct params v j).1.status ∈ actionResultStatuses := by
  unfold executeToolPhase
  split
  · cases env.tool ct params <;> simp [actionResultStatuses]
  · simp [actionResultStatuses]

theorem executeJudgePhase_status_mem (env : OrchEnv) (base : OrchResult) (ct : String)
    (params : List (String × String)) (sev : Severity)
    (validation : Option ValidationResult) (v : Nat) :
    (executeJudgePhase env base ct params sev validation v).1.status ∈ actionResultStatuses := by
  unfold executeJudgePhase
  split
  · cases hj : env.judge with
    | none =>
      cases validation <;> exact executeToolPhase_status_mem env base ct params v 0
    | some jf =>
      cases validation with
      | none => exact executeToolPhase_status_mem env base ct params v 0
      | some vr =>
        dsimp only
        split
        · simp [actionResultStatuses]
        · exact executeToolPhase_status_mem env _ ct params v 1
  · exact executeToolPhase_status_mem env base ct params v 0

/-- Every status `execute_action` can assign is one of the four
`ActionResult` enum values; in particular `SUCCESS_CACHED` is never
produced by the orchestrator. -/
theorem executeAction_status_mem (env : OrchEnv) (aid ct : String)
    (params : List (String × String)) (sev : Severity) :
    (executeAction env aid ct params sev).1.status ∈ actionResultStatuses := by
  unfold executeAction
  dsimp only
  by_cases hpol : (getPoliciesForCommand ct).action = some "BLOCK"
  · rw [if_pos hpol]
    simp [actionResultStatuses]
  · rw [if_neg hpol]
    cases hv : env.validator with
    | none => exact executeJudgePhase_status_mem env _ ct params sev none 0
    | some vf =>
      dsimp only
      by_cases hp : (!(vf ct params).passed) = true
      · rw [if_pos hp]
        simp [actionResultStatuses]
      · rw [if_neg hp]
        exact executeJudgePhase_status_mem env _ ct params sev _ 1

/-- When no validation result exists, the judge step is skipped entirely. -/
theorem executeJudgePhase_none (env : OrchEnv) (base : OrchResult) (ct : String)
    (params : List (String × String)) (sev : Severity) (v : Nat) :
    executeJudgePhase env base ct params sev none v =
      executeToolPhase env base ct params v 0 := by
  unfold executeJudgePhase
  split
  · cases env.judge <;> rfl
  · rfl

theorem executeToolPhase_trace (env : OrchEnv) (base : OrchResult) (ct : String)
    (params : List (String × String)) (v j : Nat) :
    (executeToolPhase env base ct params v j).2.validatorCalls = v ∧
    (executeToolPhase env base ct params v j).2.judgeCalls = j ∧
    (executeToolPhase env base ct params v j).1.judgeDecisions = base.judgeDecisions ∧
    (toolMapKnown ct = true → (executeToolPhase env base ct params v j).2.toolCalls = 1) := by
  unfold executeToolPhase
  split
  · cases env.tool ct params <;> simp
  · rename_i hk
    simp [hk]

/-- The configured `CONNECT_INTEGRATION` policy reason. -/
def connectIntegrationReason : String :=
  "New integrations require manual security and permissions review."

/-- Claim C4: every `CONNECT_INTEGRATION` command, for any parameters and
severity, is BLOCKED with a rationale containing the configured policy
reason, and the risk validator, the judge panel and the tool executor are
never invoked (the policy table is evaluated first). -/
theorem claim_c4 (env : OrchEnv) (aid : String)
    (params : List (String × String)) (sev : Severity) :
    (getPoliciesForCommand "CONNECT_INTEGRATION").reason = some connectIntegrationReason ∧
    (executeAction env aid "CONNECT_INTEGRATION" params sev).1.status = "BLOCKED" ∧
    (∃ pre suf, (executeAction env aid "CONNECT_INTEGRATION" params sev).1.rationale =
      pre ++ connectIntegrationReason ++ suf) ∧
    (executeAction env aid "CONNECT_INTEGRATION" params sev).2 = ⟨0, 0, 0⟩ := by
  refine ⟨rfl, rfl, ⟨"Action blocked by policy: ", "", ?_⟩, rfl⟩
  apply String.ext
  simp [executeAction, getPoliciesForCommand, String.data_append, connectIntegrationReason]

/-- Claim C9: with no configured risk validator, `execute_action` consults
no judges and attaches no judge decisions for any command and any severity,
and for a policy-allowed command wired in the tool map it proceeds straight
from the policy gate to tool execution. -/
theorem claim_c9
    (judge : Option (String → List (String × String) → ValidationResult → List JudgeDecision))
    (tool : String → List (String × String) → Except String String)
    (aid ct : String) (params : List (String × String)) (sev : Severity) :
    (executeAction ⟨none, judge, tool⟩ aid ct params sev).2.validatorCalls = 0 ∧
    (executeAction ⟨none, judge, tool⟩ aid ct params sev).2.judgeCalls = 0 ∧
    (executeAction ⟨none, judge, tool⟩ aid ct params sev).1.judgeDecisions = none ∧
    ((getPoliciesForCommand ct).action ≠ some "BLOCK" → toolMapKnown ct = true →
      (executeAction ⟨none, judge, tool⟩ aid ct params sev).2.toolCalls = 1) := by
  unfold executeAction
  dsimp only
  by_cases hpol : (getPoliciesForCommand ct).action = some "BLOCK"
  · rw [if_pos hpol]
    exact ⟨rfl, rfl, rfl, fun h _ => absurd hpol h⟩
  · rw [if_neg hpol]
    rw [executeJudgePhase_none]
    obtain ⟨h1, h2, h3, h4⟩ :=
      executeToolPhase_trace ⟨none, judge, tool⟩
        { actionId := aid, commandType := ct, status := "FAILED", rationale := "",
          validation := none, judgeDecisions := none, toolResult := none }
        ct params 0 0
    exact ⟨h1, h2, h3, fun _ hk => h4 hk⟩

/-- Tool dispatch ends in SUCCESS or FAILED (never NEEDS_APPROVAL). -/
theorem executeToolPhase_status_or (env : OrchEnv) (base : OrchResult) (ct : String)
    (params : List (String × String)) (v j : Nat) :
    (executeToolPhase env base ct params v j).1.status = "SUCCESS" ∨
    (executeToolPhase env base ct params v j).1.status = "FAILED" := by
  unfold executeToolPhase
  split
  · cases env.tool ct params <;> simp
  · simp

/-- Validator/judge environment used to exhibit the C6 divergence. -/
def c6Env : OrchEnv :=
  { validator := some fun _ _ =>
      { riskScore := 0, shortSummary := "ok", compressedProof := "p", passed := true },
    judge := some fun _ _ _ =>
      [{ judgeId := "security", score := 1, rationale := "fine", approved := true },
       { judgeId := "compliance", score := 1, rationale := "fine", approved := true },
       { judgeId := "business", score := 1, rationale := "fine", approved := true }],
    tool := fun _ _ => Except.ok "refreshed" }

/-- Claim C6 (refuting evidence): the policy table sets
`require_judge_approval` for `REFRESH_TOKEN`, yet `execute_action` with a
configured validator and judge panel runs a LOW-severity `REFRESH_TOKEN`
without consulting any judge: no `judge_decisions` are attached, the judge
panel is invoked zero times, and the tool executes. -/
theorem claim_c6 :
    (getPoliciesForCommand "REFRESH_TOKEN").requireJudgeApproval = some true ∧
    (executeAction c6Env "a1" "REFRESH_TOKEN" [("service", "google")]
        Severity.LOW).1.judgeDecisions = none ∧
    (executeAction c6Env "a1" "REFRESH_TOKEN" [("service", "google")]
        Severity.LOW).2.judgeCalls = 0 ∧
    (executeAction c6Env "a1" "REFRESH_TOKEN" [("service", "google")]
        Severity.LOW).2.toolCalls = 1 ∧
    (executeAction c6Env "a1" "REFRESH_TOKEN" [("service", "google")]
        Severity.LOW).1.status = "SUCCESS" := by
  refine ⟨rfl, rfl, rfl, rfl, rfl⟩

/-- Two-judge environment with exactly one approval: not a strict majority,
yet the orchestrator's `approved_count < len / 2` test lets it proceed. -/
def c3cEnv : OrchEnv :=
  { validator := some fun _ _ =>
      { riskScore := 0, shortSummary := "ok", compressedProof := "p", passed := true },
    judge := some fun _ _ _ =>
      [{ judgeId := "j1", score := 1, rationale := "yes", approved := true },
       { judgeId := "j2", score := 0, rationale := "no", approved := false }],
    tool := fun _ _ => Except.ok "done" }

/-- Counterexample to claim C3 as stated: a consulted panel of two judges
with a single approval is not a strict majority (2·1 &gt; 2 fails), so the
claim requires NEEDS_APPROVAL with no tool execution — but `execute_action`
proceeds to tool execution and returns SUCCESS. -/
theorem claim_c3_counterexample :
    ((executeAction c3cEnv "a1" "REFRESH_TOKEN" [("service", "google")]
        Severity.MEDIUM).1.judgeDecisions.map
          (fun ds => (ds.countP (fun d => d.approved), ds.length)) = some (1, 2)) ∧
    (executeAction c3cEnv "a1" "REFRESH_TOKEN" [("service", "google")]
        Severity.MEDIUM).1.status = "SUCCESS" ∧
    (executeAction c3cEnv "a1" "REFRESH_TOKEN" [("service", "google")]
        Severity.MEDIUM).1.status ≠ "NEEDS_APPROVAL" ∧
    (executeAction c3cEnv "a1" "REFRESH_TOKEN" [("service", "google")]
        Severity.MEDIUM).2.toolCalls = 1 := by
  refine ⟨rfl, rfl, by decide, rfl⟩

/-- Claim C3 (amended): for a consulted judge panel the pipeline returns
NEEDS_APPROVAL without tool execution exactly when fewer than half of the
returned decisions approve (`2·approved &lt; n`); with at least half approving
(ties included) it proceeds to tool execution.  For the three-judge panels
in the spec's examples this coincides with strict majority. -/
theorem claim_c3
    (vf : String → List (String × String) → ValidationResult)
    (jf : String → List (String × String) → ValidationResult → List JudgeDecision)
    (tool : String → List (String × String) → Except String String)
    (aid ct : String) (params : List (String × String)) (sev : Severity)
    (hpol : (getPoliciesForCommand ct).action ≠ some "BLOCK")
    (hpass : (vf ct params).passed = true)
    (hsev : sev = Severity.MEDIUM ∨ sev = Severity.HIGH) :
    (2 * (jf ct params (vf ct params)).countP (fun d => d.approved) <
        (jf ct params (vf ct params)).length →
      (executeAction ⟨some vf, some jf, tool⟩ aid ct params sev).1.status =
          "NEEDS_APPROVAL" ∧
      (executeAction ⟨some vf, some jf, tool⟩ aid ct params sev).2.toolCalls = 0) ∧
    ((jf ct params (vf ct params)).length ≤
        2 * (jf ct params (vf ct params)).countP (fun d => d.approved) →
      (executeAction ⟨some vf, some jf, tool⟩ aid ct params sev).1.status ≠
          "NEEDS_APPROVAL" ∧
      (toolMapKnown ct = true →
        (executeAction ⟨some vf, some jf, tool⟩ aid ct params sev).2.toolCalls = 1)) := by
  unfold executeAction
  dsimp only
  rw [if_neg hpol]
  rw [if_neg (by simp [hpass])]
  unfold executeJudgePhase
  rw [if_pos hsev]
  dsimp only
  constructor
  · intro hlt
    rw [if_pos hlt]
    exact ⟨rfl, rfl⟩
  · intro hge
    rw [if_neg (Nat.not_lt.mpr hge)]
    constructor
    · rcases executeToolPhase_status_or ⟨some vf, some jf, tool⟩
        { actionId := aid, commandType := ct, status := "FAILED", rationale := "",
          validation := some (vf ct params),
          judgeDecisions := some (jf ct params (vf ct params)), toolResult := none }
        ct params 1 1 with h | h <;> simp [h]
    · intro hk
      obtain ⟨_, _, _, h4⟩ :=
        executeToolPhase_trace ⟨some vf, some jf, tool⟩
          { actionId := aid, commandType := ct, status := "FAILED", rationale := "",
            validation := some (vf ct params),
            judgeDecisions := some (jf ct params (vf ct params)), toolResult := none }
          ct params 1 1
      exact h4 hk

/-- Passing validator used by the C3 witness. -/
def c3wVf : String → List (String × String) → ValidationResult :=
  fun _ _ => { riskScore := 0, shortSummary := "ok", compressedProof := "p", passed := true }

/-- Three-judge panel approving [true, false, false]. -/
def c3wPanelDeny : String → List (String × String) → ValidationResult → List JudgeDecision :=
  fun _ _ _ =>
    [{ judgeId := "security", score := 1, rationale := "yes", approved := true },
     { judgeId := "compliance", score := 0, rationale := "no", approved := false },
     { judgeId := "business", score := 0, rationale := "no", approved := false }]

/-- Three-judge panel approving [true, true, false]. -/
def c3wPanelApprove : String → List (String × String) → ValidationResult → List JudgeDecision :=
  fun _ _ _ =>
    [{ judgeId := "security", score := 1, rationale := "yes", approved := true },
     { judgeId := "compliance", score := 1, rationale := "yes", approved := true },
     { judgeId := "business", score := 0, rationale := "no", approved := false }]

/-- Tool stub used by the C3 witness. -/
def c3wTool : String → List (String × String) → Except String String :=
  fun _ _ => Except.ok "done"

/-- Witness for C3 at the spec's three-judge examples: [true, false, false]
yields NEEDS_APPROVAL with no tool call, [true, true, false] proceeds to
tool execution. -/
theorem claim_c3_witness :
    ((getPoliciesForCommand "REFRESH_TOKEN").action ≠ some "BLOCK") ∧
    (c3wVf "REFRESH_TOKEN" [("service", "google")]).passed = true ∧
    (Severity.MEDIUM = Severity.MEDIUM ∨ Severity.MEDIUM = Severity.HIGH) ∧
    (2 * (c3wPanelDeny "REFRESH_TOKEN" [("service", "google")]
        (c3wVf "REFRESH_TOKEN" [("service", "google")])).countP (fun d => d.approved) <
      (c3wPanelDeny "REFRESH_TOKEN" [("service", "google")]
        (c3wVf "REFRESH_TOKEN" [("service", "google")])).length) ∧
    (executeAction ⟨some c3wVf, some c3wPanelDeny, c3wTool⟩ "a1" "REFRESH_TOKEN"
        [("service", "google")] Severity.MEDIUM).1.status = "NEEDS_APPROVAL" ∧
    (executeAction ⟨some c3wVf, some c3wPanelDeny, c3wTool⟩ "a1" "REFRESH_TOKEN"
        [("service", "google")] Severity.MEDIUM).2.toolCalls = 0 ∧
    ((c3wPanelApprove "REFRESH_TOKEN" [("service", "google")]
        (c3wVf "REFRESH_TOKEN" [("service", "google")])).length ≤
      2 * (c3wPanelApprove "REFRESH_TOKEN" [("service", "google")]
        (c3wVf "REFRESH_TOKEN" [("service", "google")])).countP (fun d => d.approved)) ∧
    toolMapKnown "REFRESH_TOKEN" = true ∧
    (executeAction ⟨some c3wVf, some c3wPanelApprove, c3wTool⟩ "a1" "REFRESH_TOKEN"
        [("service", "google")] Severity.MEDIUM).1.status ≠ "NEEDS_APPROVAL" ∧
    (executeAction ⟨some c3wVf, some c3wPanelApprove, c3wTool⟩ "a1" "REFRESH_TOKEN"
        [("service", "google")] Severity.MEDIUM).2.toolCalls = 1 := by
  have hA := claim_c3 c3wVf c3wPanelDeny c3wTool "a1" "REFRESH_TOKEN"
    [("service", "google")] Severity.MEDIUM (by decide) rfl (Or.inl rfl)
  have hB := claim_c3 c3wVf c3wPanelApprove c3wTool "a1" "REFRESH_TOKEN"
    [("service", "google")] Severity.MEDIUM (by decide) rfl (Or.inl rfl)
  obtain ⟨s1, s2⟩ := hA.1 (by decide)
  obtain ⟨s3, s4⟩ := hB.2 (by decide)
  exact ⟨by decide, rfl, Or.inl rfl, by decide, s1, s2, by decide, rfl, s3, s4 rfl⟩

/-! ### Command poller (src/agents/command-poller/command_poller.py)

`CommandPoller.process_command` validates the parsed command, consults the
Redis idempotency store keyed by `sha256(raw_text)`, checks the kill
switch, dispatches to the MCP orchestrator, and appends exactly one ledger
entry on the success and caught-exception paths.  Redis and the MCP call
are modelled as explicit state and an environment function; wall-clock time
is an explicit `now` parameter and latencies are recorded as 0 (the ledger
hash ignores them). -/

/-- The poller's `CommandType` enum (seven values). -/
inductive CommandType
  | SCAN_SITE
  | PUBLISH_REPORT
  | START_CAMPAIGN
  | POST_VIMEO
  | TRAIN_AGENT
  | ENFORCE_POLICY
  | REVERT_ACTION
deriving DecidableEq

/-- One `COMMAND_SCHEMAS` row. -/
structure CommandSchema where
  required : List String
  optional : List String
  severity : Severity
deriving DecidableEq

/-- `CommandValidator.COMMAND_SCHEMAS`. -/
def commandSchemas : CommandType → CommandSchema
  | .SCAN_SITE => ⟨["domain"], [], .LOW⟩
  | .PUBLISH_REPORT => ⟨["client", "dataset", "format"], ["template"], .MEDIUM⟩
  | .START_CAMPAIGN => ⟨["channel", "campaign_id"], ["schedule_at"], .HIGH⟩
  | .POST_VIMEO => ⟨["title", "url"], ["visibility"], .LOW⟩
  | .TRAIN_AGENT => ⟨["dataset", "run"], ["hyperparams"], .LOW⟩
  | .ENFORCE_POLICY => ⟨["policy_id", "reason"], [], .HIGH⟩
  | .REVERT_ACTION => ⟨["action_id"], ["reason"], .HIGH⟩

/-- `ParsedCommand` dataclass (`issued_at` is external wall-clock data and
is omitted; params keep dict insertion order as an association list). -/
structure ParsedCommand where
  commandType : CommandType
  actionId : String
  params : List (String × String)
  rawText : String
  lineNumber : Nat
  severity : Severity := Severity.LOW
deriving DecidableEq

/-- Does `pat` occur at the head of `l`? -/
def leadsWith : List Char → List Char → Bool
  | [], _ => true
  | _ :: _, [] => false
  | a :: as, b :: bs => a == b && leadsWith as bs

/-- Does `pat` occur anywhere in `l`? -/
def containsSeq (pat : List Char) : List Char → Bool
  | [] => leadsWith pat []
  | c :: cs => leadsWith pat (c :: cs) || containsSeq pat cs

/-- The shell metacharacter class of `_is_safe_value`. -/
def isDangerChar (c : Char) : Bool :=
  c == ';' || c == '|' || c == '&' || c == '$' || c == Char.ofNat 96

/-- Match of the pattern `union`, one-or-more whitespace, `select` at the
head of `l` (on lowercased text). -/
def unionSelectAt (l : List Char) : Bool :=
  leadsWith "union".data l &&
    (let r := l.drop 5
     let w := r.takeWhile Char.isWhitespace
     !w.isEmpty && leadsWith "select".data (r.drop w.length))

/-- Search for the `union\s+select` pattern anywhere in `l`. -/
def hasUnionSelect : List Char → Bool
  | [] => false
  | c :: cs => unionSelectAt (c :: cs) || hasUnionSelect cs

/-- `CommandValidator._is_safe_value`: the injection denylist (shell
metacharacters, `<script`, SQL `union\s+select`, path traversal,
case-insensitively) and the 1000-character cap. -/
def isSafeValue (value : String) : Bool :=
  let lower := value.data.map Char.toLower
  !(value.data.any isDangerChar) &&
  !(containsSeq "<script".data lower) &&
  !(hasUnionSelect lower) &&
  !(containsSeq "../".data value.data) &&
  value.length ≤ 1000

/-- `CommandValidator.validate`: first missing required field, then first
unsafe parameter value, else success with the schema severity (which the
Python code writes back into `parsed.severity`). -/
def validateCommand (p : ParsedCommand) : Option String × Severity :=
  let schema := commandSchemas p.commandType
  match schema.required.find? (fun r => !(p.params.any (fun kv => kv.1 == r))) with
  | some r => (some ("Missing required parameter: " ++ r), p.severity)
  | none =>
    match p.params.find? (fun kv => !(isSafeValue kv.2)) with
    | some kv => (some ("Unsafe value in parameter " ++ kv.1 ++ ": " ++ kv.2), p.severity)
    | none => (none, schema.severity)

/-- The orchestrator response dict as the poller reads it
(`result.get('status')`, `result.get('rationale', ...)`). -/
structure McpResult where
  status : Option String
  rationale : Option String
deriving DecidableEq

/-- A cached `{'receipt_hash': ..., 'result': ...}` value. -/
structure CachedVal where
  receiptHash : String
  result : McpResult
deriving DecidableEq

/-- The Redis idempotency store: claimed fingerprints and cached results,
each with an absolute expiry instant. -/
structure IdemStore where
  claims : List (String × Nat)
  results : List (String × Nat × CachedVal)
deriving DecidableEq

/-- `IdempotencyStore.check_and_record`: Redis `SET key NX EX ttl` — claims
the key and returns `true` if it is absent or expired, else `false`. -/
def checkAndRecord (st : IdemStore) (now : Nat) (key : String) (ttl : Nat) :
    Bool × IdemStore :=
  match st.claims.find? (fun e => e.1 == key) with
  | some e =>
    if now < e.2 then (false, st)
    else (true, { st with
      claims := st.claims.map (fun e2 => if e2.1 == key then (key, now + ttl) else e2) })
  | none => (true, { st with claims := st.claims ++ [(key, now + ttl)] })

/-- `IdempotencyStore.get_cached_result`: an unexpired cached value. -/
def getCachedResult (st : IdemStore) (now : Nat) (key : String) : Option CachedVal :=
  match st.results.find? (fun e => e.1 == key) with
  | some e => if now < e.2.1 then some e.2.2 else none
  | none => none

/-- `IdempotencyStore.cache_result`: Redis `SETEX` (overwrite with TTL). -/
def cacheResult (st : IdemStore) (now : Nat) (key : String) (ttl : Nat)
    (v : CachedVal) : IdemStore :=
  { st with results := (st.results.filter (fun e => !(e.1 == key))) ++ [(key, now + ttl, v)] }

/-- `NotionClient.get_feature_flag`: the stub returns
`{"enabled": True, "value": "false"}` for `kill_switch`. -/
def getFeatureFlag (key : String) : Option (Bool × Option String) :=
  if key == "kill_switch" then some (true, some "false") else some (true, none)

/-- ASCII lowercasing of a string. -/
def toLowerStr (s : String) : String := String.mk (s.data.map Char.toLower)

/-- `CommandPoller.check_kill_switch`: with the stubbed feature flag this is
always `false`. -/
def checkKillSwitch : Bool :=
  match getFeatureFlag "kill_switch" with
  | some f => toLowerStr (f.2.getD "false") == "true"
  | none => false

/-- The poller's mutable state: idempotency store, ledger `last_hash`, and
the appended ledger rows. -/
structure PollerState where
  idem : IdemStore
  lastHash : Option String
  ledger : List LedgerEntry
deriving DecidableEq

/-- The poller's external capabilities: the hash function and the signed
MCP dispatch (`MCPClient.execute_action`; `.error` is a raised exception,
e.g. a transport failure or an open circuit breaker). -/
structure PollerEnv where
  H : String → String
  mcp : ParsedCommand → Except String McpResult

/-- Stateful `append_ledger`: compute the new hash, advance `last_hash`,
and append the stored row. -/
def appendLedgerRun (H : String → String) (st : PollerState) (inp : LedgerInput) :
    String × PollerState :=
  let h := appendLedger H st.lastHash inp
  (h, { st with
        lastHash := some h,
        ledger := st.ledger ++
          [{ actionId := inp.actionId, command := inp.command, result := inp.result,
             latencyMs := inp.latencyMs, rationale := inp.rationale,
             signer := inp.signer, storedHash := h }] })

/-- The `except Exception` boundary of `process_command`: append a FAILED
ledger entry with the exception message and return `(False, "ERROR: "+hash)`. -/
def processFailure (env : PollerEnv) (st : PollerState) (p : ParsedCommand)
    (msg : String) (dispatches : Nat) :
    Except Unit (Bool × String) × PollerState × Nat :=
  let ar := appendLedgerRun env.H st
    ⟨p.actionId, p.rawText, "FAILED", 0, msg, "command_poller"⟩
  (.ok (false, "ERROR: " ++ ar.1), ar.2, dispatches)

/-- `CommandPoller.process_command`.  Returns the Python return value
(`.error ()` stands for the uncaught `SystemExit` of the kill-switch
branch, which `except Exception` does not catch), the updated state, and
the number of MCP dispatches performed. -/
def processCommand (env : PollerEnv) (now : Nat) (st : PollerState)
    (p : ParsedCommand) : Except Unit (Bool × String) × PollerState × Nat :=
  let vres := validateCommand p
  match vres.1 with
  | some err => processFailure env st p ("Validation failed: " ++ err) 0
  | none =>
    let p1 := { p with severity := vres.2 }
    let fp := env.H p1.rawText
    let cr := checkAndRecord st.idem now fp 3600
    let st1 := { st with idem := cr.2 }
    if !cr.1 then
      (.ok (true, (match getCachedResult st1.idem now fp with
                   | some c => c.receiptHash
                   | none => "DUPLICATE")), st1, 0)
    else if checkKillSwitch then
      (.error (), st1, 0)
    else
      match env.mcp p1 with
      | .error e => processFailure env st1 p1 e 1
      | .ok r =>
        if !(r.status == some "SUCCESS" || r.status == some "OK") then
          processFailure env st1 p1
            ("MCP execution failed: " ++ r.rationale.getD "No rationale") 1
        else
          let ar := appendLedgerRun env.H st1
            ⟨p1.actionId, p1.rawText, "SUCCESS", 0,
             r.rationale.getD "Completed successfully", "command_poller"⟩
          let st2 := { ar.2 with idem := cacheResult ar.2.idem now fp 3600 ⟨ar.1, r⟩ }
          (.ok (true, ar.1), st2, 1)

/-- Sample environment: identity hash, MCP always answering SUCCESS. -/
def pollSampleEnv : PollerEnv :=
  { H := fun s => s,
    mcp := fun _ => Except.ok { status := some "SUCCESS", rationale := some "done" } }

/-- Sample valid command (`SCAN_SITE domain=example.com`). -/
def pollSampleCmd : ParsedCommand :=
  { commandType := .SCAN_SITE, actionId := "a1",
    params := [("domain", "example.com")],
    rawText := "SCAN_SITE domain=example.com", lineNumber := 1 }

/-- Fresh poller state. -/
def pollSampleSt : PollerState := { idem := ⟨[], []⟩, lastHash := none, ledger := [] }

/-- The poller state after the first sample submission. -/
def pollSampleSt1 : PollerState :=
  (processCommand pollSampleEnv 0 pollSampleSt pollSampleCmd).2.1

/-- Claim C1 (refuting evidence): the orchestrator can never return status
`SUCCESS_CACHED` (its `ActionResult` enum has only SUCCESS, FAILED, BLOCKED
and NEEDS_APPROVAL), and on a duplicate submission within the TTL the
poller performs no dispatch and returns only the first submission's bare
receipt-hash string — not an ActionResult carrying a cached `tool_result`.
The first half of the claim (the executor is invoked at most once) does
hold: the first submission dispatches once, the duplicate dispatches zero
times. -/
theorem claim_c1 :
    (∀ (env : OrchEnv) (aid ct : String) (params : List (String × String)) (sev : Severity),
      (executeAction env aid ct params sev).1.status ≠ "SUCCESS_CACHED") ∧
    (processCommand pollSampleEnv 0 pollSampleSt pollSampleCmd).2.2 = 1 ∧
    (processCommand pollSampleEnv 0 pollSampleSt pollSampleCmd).1 =
      Except.ok (true, "a1:SCAN_SITE domain=example.com:SUCCESS:genesis") ∧
    (processCommand pollSampleEnv 10 pollSampleSt1 pollSampleCmd).2.2 = 0 ∧
    (processCommand pollSampleEnv 10 pollSampleSt1 pollSampleCmd).1 =
      Except.ok (true, "a1:SCAN_SITE domain=example.com:SUCCESS:genesis") := by
  refine ⟨?_, rfl, rfl, rfl, rfl⟩
  intro env aid ct params sev h
  have hm := executeAction_status_mem env aid ct params sev
  rw [h] at hm
  exact absurd hm (by decide)

/-- Counterexample to claim C7 as stated: a duplicate submission enters
`process_command` (it is a parsed command in the pipeline) but the
idempotency short-circuit returns before any ledger append, so that path
terminates with zero ledger entries rather than exactly one. -/
theorem claim_c7_counterexample :
    (processCommand pollSampleEnv 0 pollSampleSt pollSampleCmd).2.1.ledger.length = 1 ∧
    (processCommand pollSampleEnv 10 pollSampleSt1 pollSampleCmd).2.1.ledger =
      pollSampleSt1.ledger ∧
    pollSampleSt1.ledger.length = 1 := ⟨rfl, rfl, rfl⟩

/-- The duplicate short-circuit condition of `process_command`: validation
passed and the fingerprint was already claimed and unexpired. -/
def duplicateShortCircuit (env : PollerEnv) (now : Nat) (st : PollerState)
    (p : ParsedCommand) : Bool :=
  match (validateCommand p).1 with
  | some _ => false
  | none => !(checkAndRecord st.idem now (env.H p.rawText) 3600).1

/-- Claim C7 (amended): every parsed command processed by
`process_command` appends exactly one ledger entry — with result SUCCESS on
the success path and FAILED on every caught-error path — except a
duplicate short-circuited by the idempotency store, which appends none
(and performs no dispatch). -/
theorem claim_c7 (env : PollerEnv) (now : Nat) (st : PollerState) (p : ParsedCommand) :
    (duplicateShortCircuit env now st p = true →
      (processCommand env now st p).2.1.ledger = st.ledger ∧
      (processCommand env now st p).2.2 = 0) ∧
    (duplicateShortCircuit env now st p = false →
      ∃ e, (processCommand env now st p).2.1.ledger = st.ledger ++ [e] ∧
        ((e.result = "FAILED" ∧ (processCommand env now st p).1 =
            Except.ok (false, "ERROR: " ++ e.storedHash)) ∨
         (e.result = "SUCCESS" ∧ (processCommand env now st p).1 =
            Except.ok (true, e.storedHash)))) := by
  unfold processCommand duplicateShortCircuit processFailure appendLedgerRun
  dsimp only
  cases hval : (validateCommand p).1 with
  | some err =>
    dsimp only
    constructor
    · intro h
      cases h
    · intro h2
      refine ⟨_, rfl, Or.inl ⟨rfl, rfl⟩⟩
  | none =>
    dsimp only
    cases hcr : (checkAndRecord st.idem now (env.H p.rawText) 3600).1 with
    | false =>
      rw [if_pos (show (!false) = true from rfl)]
      constructor
      · intro h1
        exact ⟨rfl, rfl⟩
      · intro h2
        rw [show (!false) = true from rfl] at h2
        cases h2
    | true =>
      rw [if_neg (show ¬((!true) = true) from by decide)]
      rw [show checkKillSwitch = false from rfl]
      rw [if_neg (show ¬(false = true) from by decide)]
      constructor
      · intro h1
        rw [show (!true) = false from rfl] at h1
        cases h1
      intro h2
      cases hm : env.mcp { p with severity := (validateCommand p).2 } with
      | error e =>
        dsimp only
        refine ⟨_, rfl, Or.inl ⟨rfl, rfl⟩⟩
      | ok r =>
        dsimp only
        by_cases hs : (!(r.status == some "SUCCESS" || r.status == some "OK")) = true
        · rw [if_pos hs]
          refine ⟨_, rfl, Or.inl ⟨rfl, rfl⟩⟩
        · rw [if_neg hs]
          refine ⟨_, rfl, Or.inr ⟨rfl, rfl⟩⟩

/-- Witness for C7: the sample command appends one SUCCESS entry on first
submission (non-duplicate) and no entry on its duplicate resubmission. -/
theorem claim_c7_witness :
    duplicateShortCircuit pollSampleEnv 0 pollSampleSt pollSampleCmd = false ∧
    (∃ e, (processCommand pollSampleEnv 0 pollSampleSt pollSampleCmd).2.1.ledger =
        pollSampleSt.ledger ++ [e] ∧
      ((e.result = "FAILED" ∧ (processCommand pollSampleEnv 0 pollSampleSt pollSampleCmd).1 =
          Except.ok (false, "ERROR: " ++ e.storedHash)) ∨
       (e.result = "SUCCESS" ∧ (processCommand pollSampleEnv 0 pollSampleSt pollSampleCmd).1 =
          Except.ok (true, e.storedHash)))) ∧
    duplicateShortCircuit pollSampleEnv 10 pollSampleSt1 pollSampleCmd = true ∧
    (processCommand pollSampleEnv 10 pollSampleSt1 pollSampleCmd).2.1.ledger =
      pollSampleSt1.ledger ∧
    (processCommand pollSampleEnv 10 pollSampleSt1 pollSampleCmd).2.2 = 0 := by
  have h1 := (claim_c7 pollSampleEnv 0 pollSampleSt pollSampleCmd).2 (by decide)
  have h2 := (claim_c7 pollSampleEnv 10 pollSampleSt1 pollSampleCmd).1 (by decide)
  exact ⟨by decide, h1, by decide, h2.1, h2.2⟩

/-- Witness for C9: a LOW-cost concrete instance — `REFRESH_TOKEN` at HIGH
severity with no validator configured is executed with no judge involvement. -/
theorem claim_c9_witness :
    ((getPoliciesForCommand "REFRESH_TOKEN").action ≠ some "BLOCK") ∧
    toolMapKnown "REFRESH_TOKEN" = true ∧
    (executeAction ⟨none, none, c3wTool⟩ "a1" "REFRESH_TOKEN" [("service", "google")]
        Severity.HIGH).2.validatorCalls = 0 ∧
    (executeAction ⟨none, none, c3wTool⟩ "a1" "REFRESH_TOKEN" [("service", "google")]
        Severity.HIGH).2.judgeCalls = 0 ∧
    (executeAction ⟨none, none, c3wTool⟩ "a1" "REFRESH_TOKEN" [("service", "google")]
        Severity.HIGH).1.judgeDecisions = none ∧
    (executeAction ⟨none, none, c3wTool⟩ "a1" "REFRESH_TOKEN" [("service", "google")]
        Severity.HIGH).2.toolCalls = 1 := by
  have h := claim_c9 none c3wTool "a1" "REFRESH_TOKEN" [("service", "google")] Severity.HIGH
  exact ⟨by decide, rfl, h.1, h.2.1, h.2.2.1, h.2.2.2 (by decide) rfl⟩

/-! ### Circuit breaker (command_poller.py lines 95-131)

`CircuitBreaker.call` guards an outbound call: in state "OPEN" it raises
immediately unless more than `timeout` seconds have passed since the
recorded failure, in which case it moves to "HALF_OPEN" and lets one probe
through; a success in "HALF_OPEN" resets to "CLOSED"; every failure
increments the counter, records the failure time, and opens the breaker
once the counter reaches the threshold.  Wall-clock instants are explicit
`Nat` parameters; whether the wrapped function would fail is the Boolean
`funcFails`, and the outcome `rejected` means the wrapped function was not
invoked. -/

/-- The breaker state object (`state` holds the Python string). -/
structure CircuitBreaker where
  name : String
  threshold : Nat
  timeout : Nat
  failureCount : Nat
  lastFailure : Option Nat
  state : String
deriving DecidableEq

/-- `CircuitBreaker.__init__`. -/
def CircuitBreaker.init (name : String) (failureThreshold timeoutSeconds : Nat) :
    CircuitBreaker :=
  { name := name, threshold := failureThreshold, timeout := timeoutSeconds,
    failureCount := 0, lastFailure := none, state := "CLOSED" }

/-- Outcome of one guarded call: `rejected` (breaker open, function not
invoked), `succeeded`, or `raised` (function invoked and its exception
re-raised). -/
inductive CallOutcome
  | rejected
  | succeeded
  | raised
deriving DecidableEq

/-- `CircuitBreaker.call`. -/
def CircuitBreaker.call (cb : CircuitBreaker) (now : Nat) (funcFails : Bool) :
    CallOutcome × CircuitBreaker :=
  let gate : Option CircuitBreaker :=
    if cb.state == "OPEN" then
      match cb.lastFailure with
      | some t => if cb.timeout < now - t then some { cb with state := "HALF_OPEN" } else none
      | none => none
    else some cb
  match gate with
  | none => (.rejected, cb)
  | some cb1 =>
    if funcFails then
      let fc := cb1.failureCount + 1
      (.raised, { cb1 with
        failureCount := fc,
        lastFailure := some now,
        state := (if cb1.threshold ≤ fc then "OPEN" else cb1.state) })
    else
      if cb1.state == "HALF_OPEN" then
        (.succeeded, { cb1 with state := "CLOSED", failureCount := 0, lastFailure := none })
      else (.succeeded, cb1)

/-- Fold a sequence of (time, would-fail) calls through the breaker. -/
def runCalls (cb : CircuitBreaker) : List (Nat × Bool) → CircuitBreaker
  | [] => cb
  | ev :: evs => runCalls (cb.call ev.1 ev.2).2 evs

/-- Breaker invariant: whenever the state is OPEN or HALF_OPEN, the failure
counter has reached the threshold and a failure instant is recorded. -/
def CBInv (cb : CircuitBreaker) : Prop :=
  (cb.state = "OPEN" ∨ cb.state = "HALF_OPEN") →
    (cb.threshold ≤ cb.failureCount ∧ cb.lastFailure ≠ none)

instance (cb : CircuitBreaker) : Decidable (CBInv cb) := by
  unfold CBInv; infer_instance

theorem CBInv_call (cb : CircuitBreaker) (now : Nat) (f : Bool) (h : CBInv cb) :
    CBInv ((cb.call now f).2) := by
  unfold CircuitBreaker.call
  by_cases hop : (cb.state == "OPEN") = true
  · rw [if_pos hop]
    have hst : cb.state = "OPEN" := by
      have := of_decide_eq_true (by simpa [BEq.beq] using hop)
      exact this
    cases hlf : cb.lastFailure with
    | none =>
      exact h
    | some t =>
      dsimp only
      by_cases ht : cb.timeout < now - t
      · rw [if_pos ht]
        have hinv := h (Or.inl hst)
        cases f with
        | true =>
          dsimp only
          rw [if_pos (show (true = true) from rfl)]
          by_cases hth : cb.threshold ≤ cb.failureCount + 1
          · rw [if_pos hth]
            intro _
            exact ⟨hth, by simp⟩
          · exact absurd (Nat.le_succ_of_le hinv.1) hth
        | false =>
          dsimp only
          rw [if_neg (show ¬(false = true) from by decide)]
          rw [if_pos (show (("HALF_OPEN" : String) == "HALF_OPEN") = true from rfl)]
          intro hcon
          rcases hcon with hcon | hcon <;> simp at hcon
      · rw [if_neg ht]
        exact h
  · rw [if_neg hop]
    have hstne : cb.state ≠ "OPEN" := by
      intro he
      exact hop (by simp [he])
    cases f with
    | true =>
      dsimp only
      rw [if_pos (show (true = true) from rfl)]
      have hinv2 : cb.state = "HALF_OPEN" → cb.threshold ≤ cb.failureCount :=
        fun hh => (h (Or.inr hh)).1
      by_cases hth : cb.threshold ≤ cb.failureCount + 1
      · rw [if_pos hth]
        intro _
        exact ⟨hth, by simp⟩
      · rw [if_neg hth]
        intro hcon
        rcases hcon with hcon | hcon
        · exact absurd hcon hstne
        · exact absurd (Nat.le_succ_of_le (hinv2 hcon)) hth
    | false =>
      dsimp only
      rw [if_neg (show ¬(false = true) from by decide)]
      by_cases hho : (cb.state == "HALF_OPEN") = true
      · rw [if_pos hho]
        intro hcon
        rcases hcon with hcon | hcon <;> simp at hcon
      · rw [if_neg hho]
        exact h

theorem CBInv_runCalls (name : String) (thr tmo : Nat) (evs : List (Nat × Bool)) :
    CBInv (runCalls (CircuitBreaker.init name thr tmo) evs) := by
  have hstep : ∀ (evs : List (Nat × Bool)) (cb : CircuitBreaker), CBInv cb →
      CBInv (runCalls cb evs) := by
    intro evs
    induction evs with
    | nil => exact fun cb h => h
    | cons ev evs ih => exact fun cb h => ih _ (CBInv_call cb ev.1 ev.2 h)
  exact hstep evs _ (by intro hcon; rcases hcon with hcon | hcon <;>
    simp [CircuitBreaker.init] at hcon)

/-- A failing call from the CLOSED state: counter up, failure time set,
state opens exactly when the counter reaches the threshold. -/
theorem call_fail_closed (cb : CircuitBreaker) (now : Nat) (h : cb.state = "CLOSED") :
    cb.call now true = (.raised, { cb with
      failureCount := cb.failureCount + 1,
      lastFailure := some now,
      state := (if cb.threshold ≤ cb.failureCount + 1 then "OPEN" else "CLOSED") }) := by
  unfold CircuitBreaker.call
  rw [if_neg (show ¬((cb.state == "OPEN") = true) from by simp [h])]
  simp only [if_true]
  rw [h]

/-- `threshold` consecutive failures starting from a fresh CLOSED breaker
whose counter is `threshold - ts.length` short of the threshold end OPEN. -/
theorem runCalls_fail_streak :
    ∀ (ts : List Nat) (cb : CircuitBreaker), cb.state = "CLOSED" →
      cb.failureCount + ts.length = cb.threshold → ts ≠ [] →
      (runCalls cb (ts.map (fun t => (t, true)))).state = "OPEN"
  | [], _, _, _, hne => absurd rfl hne
  | t :: ts, cb, hst, hsum, _ => by
    simp only [List.map_cons, runCalls]
    rw [call_fail_closed cb t hst]
    cases ts with
    | nil =>
      have hth : cb.threshold ≤ cb.failureCount + 1 := by
        simp only [List.length_cons, List.length_nil] at hsum
        omega
      simp only [List.map_nil, runCalls, if_pos hth]
    | cons t2 ts2 =>
      have hlt : ¬ cb.threshold ≤ cb.failureCount + 1 := by
        simp only [List.length_cons] at hsum
        omega
      rw [if_neg hlt]
      exact runCalls_fail_streak (t2 :: ts2) _ rfl
        (by simp only [List.length_cons] at hsum ⊢; omega) (by simp)

/-- Claim C5: the circuit breaker state machine.  (i) From a fresh breaker,
`failure_threshold` consecutive failing calls leave the state OPEN.
(ii) While OPEN, any call at or before `timeout` seconds after the recorded
failure is rejected without invoking the wrapped function and changes
nothing.  (iii) Once more than `timeout` seconds have elapsed, the next
call is let through as a probe: a succeeding probe resets the breaker to
CLOSED with the counter zeroed and the failure time cleared, and (iv) a
failing probe returns it to OPEN with the failure clock reset to `now`
(using the reachable-state invariant).  (v) Every breaker reachable from a
fresh one satisfies that invariant. -/
theorem claim_c5 :
    (∀ (name : String) (thr tmo : Nat) (ts : List Nat), ts.length = thr → thr ≠ 0 →
      (runCalls (CircuitBreaker.init name thr tmo) (ts.map (fun t => (t, true)))).state = "OPEN") ∧
    (∀ (cb : CircuitBreaker) (now t : Nat) (f : Bool), cb.state = "OPEN" →
      cb.lastFailure = some t → now - t ≤ cb.timeout →
      cb.call now f = (.rejected, cb)) ∧
    (∀ (cb : CircuitBreaker) (now t : Nat), cb.state = "OPEN" →
      cb.lastFailure = some t → cb.timeout < now - t →
      cb.call now false = (.succeeded,
        { cb with state := "CLOSED", failureCount := 0, lastFailure := none })) ∧
    (∀ (cb : CircuitBreaker) (now t : Nat), CBInv cb → cb.state = "OPEN" →
      cb.lastFailure = some t → cb.timeout < now - t →
      cb.call now true = (.raised,
        { cb with
          state := "OPEN", failureCount := cb.failureCount + 1,
          lastFailure := some now })) ∧
    (∀ (name : String) (thr tmo : Nat) (evs : List (Nat × Bool)),
      CBInv (runCalls (CircuitBreaker.init name thr tmo) evs)) := by
  refine ⟨?_, ?_, ?_, ?_, CBInv_runCalls⟩
  · intro name thr tmo ts hlen hthr
    exact runCalls_fail_streak ts _ rfl (by simp [CircuitBreaker.init, hlen])
      (by intro he; rw [he] at hlen; exact hthr hlen.symm)
  · intro cb now t f hst hlf hle
    unfold CircuitBreaker.call
    rw [if_pos (show (cb.state == "OPEN") = true from by simp [hst]), hlf]
    dsimp only
    rw [if_neg (Nat.not_lt.mpr hle)]
  · intro cb now t hst hlf hgt
    unfold CircuitBreaker.call
    rw [if_pos (show (cb.state == "OPEN") = true from by simp [hst]), hlf]
    dsimp only
    rw [if_pos hgt]
    dsimp only
    rw [if_neg (show ¬(false = true) from by decide)]
    rw [if_pos (show (("HALF_OPEN" : String) == "HALF_OPEN") = true from rfl)]
  · intro cb now t hinv hst hlf hgt
    unfold CircuitBreaker.call
    rw [if_pos (show (cb.state == "OPEN") = true from by simp [hst]), hlf]
    dsimp only
    rw [if_pos hgt]
    simp only [if_true]
    rw [if_pos (Nat.le_succ_of_le (hinv (Or.inl hst)).1)]

/-- Witness for C5: a breaker with threshold 2 and timeout 60, driven
through failures, an in-window rejection, a timed-out successful probe, and
a timed-out failing probe. -/
theorem claim_c5_witness :
    (([0, 1] : List Nat).length = 2 ∧ (2 : Nat) ≠ 0 ∧
      (runCalls (CircuitBreaker.init "mcp_api" 2 60)
        ([0, 1].map (fun t => (t, true)))).state = "OPEN") ∧
    (let cbO := runCalls (CircuitBreaker.init "mcp_api" 2 60) [(0, true), (1, true)]
     cbO.state = "OPEN" ∧ cbO.lastFailure = some 1 ∧ 30 - 1 ≤ cbO.timeout ∧
      cbO.call 30 true = (.rejected, cbO) ∧
      cbO.timeout < 100 - 1 ∧
      cbO.call 100 false = (.succeeded,
        { cbO with state := "CLOSED", failureCount := 0, lastFailure := none }) ∧
      CBInv cbO ∧
      cbO.call 100 true = (.raised,
        { cbO with
          state := "OPEN", failureCount := cbO.failureCount + 1,
          lastFailure := some 100 })) := by
  refine ⟨⟨rfl, by decide, claim_c5.1 "mcp_api" 2 60 [0, 1] rfl (by decide)⟩,
    ⟨by decide, by decide, by decide,
      claim_c5.2.1 _ 30 1 true (by decide) (by decide) (by decide),
      by decide,
      claim_c5.2.2.1 _ 100 1 (by decide) (by decide) (by decide),
      by decide,
      claim_c5.2.2.2.1 _ 100 1 (by decide) (by decide) (by decide) (by decide)⟩⟩

/-! ### Parser (CommandParser.parse_line, command_poller.py lines 177-212)

`parse_line` strips the line, skips empty lines and `#` comments, splits
off the first whitespace-delimited token, matches it case-insensitively
against the `CommandType` enum, and collects parameters with
`re.finditer(r'(\w+)=(".*?"|\S+)')`, stripping surrounding double quotes
from each value.  The regex scan is embedded faithfully: the scanner walks
the text left to right, and at each position a match needs a maximal
nonempty word-character run, `=`, then either a shortest double-quoted
group (the dot does not cross a newline) or, failing that, a maximal
nonempty run of non-whitespace; on failure the scan advances one
character, on success it resumes after the match.  Fresh UUIDs are
external, so the generated action id is a parameter.  `Char.toUpper`,
`Char.isWhitespace` and the word class are the ASCII readings of Python's
`str.upper`, `str.strip` and `\w`. -/

/-- The double-quote character. -/
def quoteChar : Char := Char.ofNat 34

/-- The newline character (regex `.` does not match it). -/
def newlineChar : Char := Char.ofNat 10

/-- Python `\w`: letters, digits, underscore. -/
def isWordChar (c : Char) : Bool := c.isAlphanum || c == '_'

/-- Drop trailing whitespace. -/
def dropTrailing (l : List Char) : List Char :=
  (l.reverse.dropWhile Char.isWhitespace).reverse

/-- Python `str.strip()`. -/
def trimChars (l : List Char) : List Char :=
  dropTrailing (l.dropWhile Char.isWhitespace)

/-- Scan for the first unescaped closing double quote, failing on a
newline; returns the body before the quote and the text after it. -/
def splitClose : List Char → Option (List Char × List Char)
  | [] => none
  | c :: t =>
    if c == quoteChar then some ([], t)
    else if c == newlineChar then none
    else (splitClose t).map (fun p => (c :: p.1, p.2))

/-- One attempted regex match of `(\w+)=(".*?"|\S+)` anchored at the head
of `s`: returns the key, the raw value token (quotes included), and the
remaining text. -/
def tryMatchAt (s : List Char) : Option ((List Char × List Char) × List Char) :=
  let w := s.takeWhile isWordChar
  if w.isEmpty then none
  else
    match s.drop w.length with
    | [] => none
    | c0 :: rest1 =>
      if c0 == '=' then
        match rest1 with
        | [] => none
        | c :: t =>
          if c == quoteChar then
            match splitClose t with
            | some p => some ((w, quoteChar :: p.1 ++ [quoteChar]), p.2)
            | none =>
              let v := rest1.takeWhile (fun ch => !ch.isWhitespace)
              if v.isEmpty then none else some ((w, v), rest1.drop v.length)
          else
            let v := rest1.takeWhile (fun ch => !ch.isWhitespace)
            if v.isEmpty then none else some ((w, v), rest1.drop v.length)
      else none

theorem splitClose_shrinks :
    ∀ (t b a : List Char), splitClose t = some (b, a) → a.length < t.length
  | [], _, _, h => by simp [splitClose] at h
  | c :: t, b, a, h => by
    unfold splitClose at h
    by_cases hq : (c == quoteChar) = true
    · rw [if_pos hq] at h
      simp only [Option.some.injEq, Prod.mk.injEq] at h
      rw [← h.2]
      simp
    · rw [if_neg hq] at h
      by_cases hn : (c == newlineChar) = true
      · rw [if_pos hn] at h
        cases h
      · rw [if_neg hn] at h
        cases hsc : splitClose t with
        | none => rw [hsc] at h; cases h
        | some p =>
          rw [hsc] at h
          simp only [Option.map_some', Option.some.injEq, Prod.mk.injEq] at h
          have := splitClose_shrinks t p.1 p.2 (by rw [hsc])
          rw [← h.2]
          exact Nat.lt_succ_of_lt this

theorem tryMatchAt_shrinks (s : List Char) (kv : List Char × List Char)
    (rest : List Char) (h : tryMatchAt s = some (kv, rest)) :
    rest.length < s.length := by
  unfold tryMatchAt at h
  by_cases he : (s.takeWhile isWordChar).isEmpty = true
  · rw [if_pos he] at h; cases h
  · rw [if_neg he] at h
    cases hd : s.drop (s.takeWhile isWordChar).length with
    | nil => rw [hd] at h; cases h
    | cons c0 rest0 =>
      rw [hd] at h
      dsimp only at h
      have hlen0 : rest0.length < s.length := by
        have h2 := congrArg List.length hd
        rw [List.length_drop] at h2
        simp only [List.length_cons] at h2
        omega
      by_cases hc0 : (c0 == '=') = true
      · rw [if_pos hc0] at h
        cases hr1 : rest0 with
        | nil => rw [hr1] at h; cases h
        | cons c t =>
          rw [hr1] at h
          dsimp only at h
          rw [hr1] at hlen0
          simp only [List.length_cons] at hlen0
          by_cases hq : (c == quoteChar) = true
          · rw [if_pos hq] at h
            cases hsc : splitClose t with
            | some p =>
              rw [hsc] at h
              simp only [Option.some.injEq, Prod.mk.injEq] at h
              have hlt := splitClose_shrinks t p.1 p.2 hsc
              rw [← h.2]
              omega
            | none =>
              rw [hsc] at h
              dsimp only at h
              by_cases hv : ((c :: t).takeWhile (fun ch => !ch.isWhitespace)).isEmpty = true
              · rw [if_pos hv] at h; cases h
              · rw [if_neg hv] at h
                simp only [Option.some.injEq, Prod.mk.injEq] at h
                rw [← h.2]
                have hvne : ((c :: t).takeWhile (fun ch => !ch.isWhitespace)).length ≠ 0 := by
                  intro hz
                  exact hv (by simpa [List.isEmpty_iff, List.length_eq_zero] using hz)
                rw [List.length_drop]
                simp only [List.length_cons]
                omega
          · rw [if_neg hq] at h
            by_cases hv : ((c :: t).takeWhile (fun ch => !ch.isWhitespace)).isEmpty = true
            · rw [if_pos hv] at h; cases h
            · rw [if_neg hv] at h
              simp only [Option.some.injEq, Prod.mk.injEq] at h
              rw [← h.2]
              have hvne : ((c :: t).takeWhile (fun ch => !ch.isWhitespace)).length ≠ 0 := by
                intro hz
                exact hv (by simpa [List.isEmpty_iff, List.length_eq_zero] using hz)
              rw [List.length_drop]
              simp only [List.length_cons]
              omega
      · rw [if_neg hc0] at h
        cases h

/-- Fuel-bounded left-to-right regex scan (the fuel only bounds the
recursion; `scanParams` supplies the text length, which always suffices
because every step consumes at least one character). -/
def scanParamsGo : Nat → List Char → List (List Char × List Char)
  | 0, _ => []
  | _ + 1, [] => []
  | fuel + 1, c :: cs =>
    match tryMatchAt (c :: cs) with
    | some kvr => kvr.1 :: scanParamsGo fuel kvr.2
    | none => scanParamsGo fuel cs

/-- `re.finditer(r'(\w+)=(".*?"|\S+)', param_str)`: all non-overlapping
matches, scanning left to right. -/
def scanParams (s : List Char) : List (List Char × List Char) :=
  scanParamsGo s.length s

theorem scanParamsGo_congr :
    ∀ (f₁ : Nat), ∀ (f₂ : Nat) (s : List Char), s.length ≤ f₁ → s.length ≤ f₂ →
      scanParamsGo f₁ s = scanParamsGo f₂ s
  | 0, f₂, s, h1, _ => by
    rw [Nat.le_zero] at h1
    rw [List.length_eq_zero] at h1
    subst h1
    cases f₂ <;> rfl
  | f + 1, f₂, s, h1, h2 => by
    cases s with
    | nil => cases f₂ <;> rfl
    | cons c cs =>
      cases f₂ with
      | zero => simp at h2
      | succ g =>
        simp only [List.length_cons] at h1 h2
        unfold scanParamsGo
        cases hm : tryMatchAt (c :: cs) with
        | some kvr =>
          dsimp only
          have hlt := tryMatchAt_shrinks (c :: cs) kvr.1 kvr.2 (by rw [hm])
          simp only [List.length_cons] at hlt
          rw [scanParamsGo_congr f g kvr.2 (by omega) (by omega)]
        | none =>
          dsimp only
          rw [scanParamsGo_congr f g cs (by omega) (by omega)]

theorem scanParams_cons (c : Char) (cs : List Char) :
    scanParams (c :: cs) =
      match tryMatchAt (c :: cs) with
      | some kvr => kvr.1 :: scanParams kvr.2
      | none => scanParams cs := by
  show scanParamsGo (c :: cs).length (c :: cs) = _
  simp only [List.length_cons]
  unfold scanParamsGo
  cases hm : tryMatchAt (c :: cs) with
  | some kvr =>
    dsimp only
    have hlt := tryMatchAt_shrinks (c :: cs) kvr.1 kvr.2 (by rw [hm])
    simp only [List.length_cons] at hlt
    rw [scanParamsGo_congr cs.length kvr.2.length kvr.2 (by omega) (by omega)]
    rfl
  | none =>
    rfl

/-- Python `str.strip('"')`: remove all leading and trailing double
quotes. -/
def stripQuoteChars (l : List Char) : List Char :=
  ((l.dropWhile (fun c => c == quoteChar)).reverse.dropWhile
    (fun c => c == quoteChar)).reverse

/-- Python dict assignment `params[key] = value`: overwrite in place if the
key exists, else append. -/
def dictInsert (m : List (String × String)) (k v : String) : List (String × String) :=
  if m.any (fun p => p.1 == k) then m.map (fun p => if p.1 == k then (k, v) else p)
  else m ++ [(k, v)]

/-- Fold the matched key-value pairs into the params dict in match order. -/
def buildParams (kvs : List (String × String)) : List (String × String) :=
  kvs.foldl (fun m kv => dictInsert m kv.1 kv.2) []

/-- The string value of each poller `CommandType`. -/
def commandTypeString : CommandType → String
  | .SCAN_SITE => "SCAN_SITE"
  | .PUBLISH_REPORT => "PUBLISH_REPORT"
  | .START_CAMPAIGN => "START_CAMPAIGN"
  | .POST_VIMEO => "POST_VIMEO"
  | .TRAIN_AGENT => "TRAIN_AGENT"
  | .ENFORCE_POLICY => "ENFORCE_POLICY"
  | .REVERT_ACTION => "REVERT_ACTION"

/-- `CommandType(command_str)`: enum lookup by string value. -/
def commandTypeOfString (s : String) : Option CommandType :=
  if s == "SCAN_SITE" then some .SCAN_SITE
  else if s == "PUBLISH_REPORT" then some .PUBLISH_REPORT
  else if s == "START_CAMPAIGN" then some .START_CAMPAIGN
  else if s == "POST_VIMEO" then some .POST_VIMEO
  else if s == "TRAIN_AGENT" then some .TRAIN_AGENT
  else if s == "ENFORCE_POLICY" then some .ENFORCE_POLICY
  else if s == "REVERT_ACTION" then some .REVERT_ACTION
  else none

/-- `CommandParser.parse_line`.  The freshly generated UUID is the
`actionId` parameter; `issued_at` is omitted as external wall-clock data. -/
def parseLine (actionId : String) (line : String) (lineNumber : Nat) :
    Option ParsedCommand :=
  let l := trimChars line.data
  if l.isEmpty then none
  else if l.head? == some '#' then none
  else
    let tok := l.takeWhile (fun c => !c.isWhitespace)
    let after := (l.drop tok.length).dropWhile Char.isWhitespace
    match commandTypeOfString (String.mk (tok.map Char.toUpper)) with
    | none => none
    | some ct =>
      let kvs := (scanParams after).map
        (fun kv => (String.mk kv.1, String.mk (stripQuoteChars kv.2)))
      some { commandType := ct, actionId := actionId, params := buildParams kvs,
             rawText := String.mk l, lineNumber := lineNumber,
             severity := Severity.LOW }

/-- A parameter value of a well-formed line: either an unquoted token or a
double-quoted string. -/
inductive ParamVal
  | plain (s : List Char)
  | quoted (s : List Char)
deriving DecidableEq

/-- How the value is written in the line. -/
def ParamVal.render : ParamVal → List Char
  | .plain s => s
  | .quoted s => quoteChar :: s ++ [quoteChar]

/-- The value the parser should recover (surrounding quotes removed). -/
def ParamVal.value : ParamVal → List Char
  | .plain s => s
  | .quoted s => s

/-- Well-formed key: nonempty, all word characters. -/
def goodKey (k : List Char) : Prop := k ≠ [] ∧ ∀ c ∈ k, isWordChar c = true

instance (k : List Char) : Decidable (goodKey k) :=
  inferInstanceAs (Decidable (k ≠ [] ∧ ∀ c ∈ k, isWordChar c = true))

/-- Well-formed value: an unquoted token is nonempty with no whitespace and
no quote; a quoted body has no quote and no newline (it may contain
whitespace). -/
def goodVal : ParamVal → Prop
  | .plain s => s ≠ [] ∧ ∀ c ∈ s, c.isWhitespace = false ∧ c ≠ quoteChar
  | .quoted s => ∀ c ∈ s, c ≠ quoteChar ∧ c ≠ newlineChar

instance : (v : ParamVal) → Decidable (goodVal v)
  | .plain s =>
    inferInstanceAs (Decidable (s ≠ [] ∧ ∀ c ∈ s, c.isWhitespace = false ∧ c ≠ quoteChar))
  | .quoted s => inferInstanceAs (Decidable (∀ c ∈ s, c ≠ quoteChar ∧ c ≠ newlineChar))

/-- Render `k1=v1 k2="a b" ...` with single spaces between parameters. -/
def renderParams : List (List Char × ParamVal) → List Char
  | [] => []
  | [kv] => kv.1 ++ ('=' :: kv.2.render)
  | kv :: rest => kv.1 ++ ('=' :: (kv.2.render ++ (' ' :: renderParams rest)))

/-- Render a full well-formed command line. -/
def renderLine (typeTok : List Char) (ps : List (List Char × ParamVal)) : List Char :=
  match ps with
  | [] => typeTok
  | _ => typeTok ++ (' ' :: renderParams ps)

theorem takeWhile_append_all {p : Char → Bool} :
    ∀ (xs ys : List Char), (∀ x ∈ xs, p x = true) →
      List.takeWhile p (xs ++ ys) = xs ++ List.takeWhile p ys
  | [], ys, _ => rfl
  | x :: xs, ys, h => by
    simp only [List.cons_append, List.takeWhile_cons, h x (by simp), if_true]
    rw [takeWhile_append_all xs ys (fun c hc => h c (by simp [hc]))]

theorem takeWhile_all {p : Char → Bool} :
    ∀ (xs : List Char), (∀ x ∈ xs, p x = true) → List.takeWhile p xs = xs
  | [], _ => rfl
  | x :: xs, h => by
    simp only [List.takeWhile_cons, h x (by simp), if_true]
    rw [takeWhile_all xs (fun c hc => h c (by simp [hc]))]

theorem takeWhile_head_false {p : Char → Bool} (x : Char) (xs : List Char)
    (h : p x = false) : List.takeWhile p (x :: xs) = [] := by
  simp [List.takeWhile_cons, h]

theorem dropWhile_head_false {p : Char → Bool} (x : Char) (xs : List Char)
    (h : p x = false) : List.dropWhile p (x :: xs) = x :: xs := by
  simp [List.dropWhile_cons, h]

theorem dropWhile_all_false {p : Char → Bool} :
    ∀ (xs : List Char), (∀ x ∈ xs, p x = false) → List.dropWhile p xs = xs
  | [], _ => rfl
  | x :: xs, h => dropWhile_head_false x xs (h x (by simp))

theorem dropWhile_eq_self_of_head {p : Char → Bool} (l : List Char)
    (h : ∀ c, l.head? = some c → p c = false) : l.dropWhile p = l := by
  cases l with
  | nil => rfl
  | cons x xs => exact dropWhile_head_false x xs (h x rfl)

theorem dropTrailing_eq_self (l : List Char)
    (h : ∀ c, l.reverse.head? = some c → c.isWhitespace = false) :
    dropTrailing l = l := by
  unfold dropTrailing
  rw [dropWhile_eq_self_of_head l.reverse h, List.reverse_reverse]

theorem isWordChar_ne_ws (c : Char) (h : isWordChar c = true) :
    c.isWhitespace = false := by
  by_contra hcon
  have hws : c.isWhitespace = true := by
    cases hx : c.isWhitespace
    · exact absurd hx hcon
    · rfl
  simp only [Char.isWhitespace] at hws
  simp only [Bool.or_eq_true, decide_eq_true_eq] at hws
  rcases hws with ((hh | hh) | hh) | hh <;> subst hh <;> simp [isWordChar] at h

theorem toUpper_ws (c : Char) (h : c.isWhitespace = true) :
    (Char.toUpper c).isWhitespace = true := by
  simp only [Char.isWhitespace, Bool.or_eq_true, decide_eq_true_eq] at h
  rcases h with ((hh | hh) | hh) | hh <;> subst hh <;> decide

theorem splitClose_append :
    ∀ (s r : List Char), (∀ c ∈ s, c ≠ quoteChar ∧ c ≠ newlineChar) →
      splitClose (s ++ quoteChar :: r) = some (s, r)
  | [], r, _ => by
    simp [splitClose]
  | c :: s, r, h => by
    have hc := h c (by simp)
    rw [List.cons_append]
    unfold splitClose
    rw [if_neg (by simp [hc.1]), if_neg (by simp [hc.2])]
    rw [splitClose_append s r (fun d hd => h d (by simp [hd]))]
    rfl

theorem tryMatchAt_render (k : List Char) (v : ParamVal) (rest : List Char)
    (hk : goodKey k) (hv : goodVal v)
    (hrest : rest = [] ∨ ∃ r, rest = ' ' :: r) :
    tryMatchAt (k ++ ('=' :: (v.render ++ rest))) = some ((k, v.render), rest) := by
  have hw : List.takeWhile isWordChar (k ++ ('=' :: (v.render ++ rest))) = k := by
    rw [takeWhile_append_all k _ hk.2, takeWhile_head_false '=' _ (by decide),
      List.append_nil]
  have htail : ∀ (l : List Char), (∀ c ∈ l, c.isWhitespace = false) →
      List.takeWhile (fun ch => !ch.isWhitespace) (l ++ rest) = l := by
    intro l hl
    rw [takeWhile_append_all l rest (fun c hc => by simp [hl c hc])]
    rcases hrest with hr | ⟨r, hr⟩ <;> subst hr
    · simp
    · rw [takeWhile_head_false ' ' r (by decide), List.append_nil]
  unfold tryMatchAt
  rw [hw]
  rw [if_neg (by simp [List.isEmpty_iff, hk.1])]
  rw [List.drop_left]
  dsimp only
  rw [if_pos (show (('=' : Char) == '=') = true from rfl)]
  cases v with
  | quoted s =>
    have hq : ParamVal.render (.quoted s) ++ rest = quoteChar :: (s ++ (quoteChar :: rest)) := by
      simp [ParamVal.render]
    rw [hq]
    dsimp only
    rw [if_pos (show ((quoteChar : Char) == quoteChar) = true from rfl)]
    rw [splitClose_append s rest hv]
    simp [ParamVal.render]
  | plain s =>
    obtain ⟨hne, hsafe⟩ := hv
    cases hs : s with
    | nil => exact absurd hs hne
    | cons c s2 =>
      subst hs
      have hcq : (c == quoteChar) = false := by
        simp [(hsafe c (by simp)).2]
      have hrender : ParamVal.render (.plain (c :: s2)) ++ rest = c :: (s2 ++ rest) := by
        simp [ParamVal.render]
      rw [hrender]
      dsimp only
      rw [if_neg (by simp [hcq])]
      have hv2 : List.takeWhile (fun ch => !ch.isWhitespace) (c :: (s2 ++ rest)) =
          c :: s2 := by
        rw [show c :: (s2 ++ rest) = (c :: s2) ++ rest from rfl]
        exact htail (c :: s2) (fun d hd => (hsafe d hd).1)
      rw [hv2]
      rw [if_neg (by simp [List.isEmpty_iff])]
      rw [show c :: (s2 ++ rest) = (c :: s2) ++ rest from rfl, List.drop_left]
      simp [ParamVal.render]

theorem tryMatchAt_space (l : List Char) : tryMatchAt (' ' :: l) = none := by
  unfold tryMatchAt
  rw [takeWhile_head_false ' ' l (by decide)]
  rfl

theorem scanParams_space (l : List Char) : scanParams (' ' :: l) = scanParams l := by
  rw [scanParams_cons, tryMatchAt_space]

theorem scanParams_render :
    ∀ (ps : List (List Char × ParamVal)), (∀ kv ∈ ps, goodKey kv.1 ∧ goodVal kv.2) →
      scanParams (renderParams ps) = ps.map (fun kv => (kv.1, kv.2.render))
  | [], _ => rfl
  | [kv], h => by
    obtain ⟨hk, hv⟩ := h kv (by simp)
    have hm := tryMatchAt_render kv.1 kv.2 [] hk hv (Or.inl rfl)
    rw [List.append_nil] at hm
    obtain ⟨c, k2, hck⟩ : ∃ c k2, kv.1 = c :: k2 := by
      cases hkv : kv.1 with
      | nil => exact absurd hkv hk.1
      | cons c k2 => exact ⟨c, k2, rfl⟩
    show scanParams (kv.1 ++ ('=' :: kv.2.render)) = _
    rw [hck, List.cons_append, scanParams_cons, ← List.cons_append, ← hck, hm]
    rfl
  | kv :: kv2 :: rest, h => by
    obtain ⟨hk, hv⟩ := h kv (by simp)
    have hm := tryMatchAt_render kv.1 kv.2 (' ' :: renderParams (kv2 :: rest)) hk hv
      (Or.inr ⟨_, rfl⟩)
    obtain ⟨c, k2, hck⟩ : ∃ c k2, kv.1 = c :: k2 := by
      cases hkv : kv.1 with
      | nil => exact absurd hkv hk.1
      | cons c k2 => exact ⟨c, k2, rfl⟩
    show scanParams (kv.1 ++ ('=' :: (kv.2.render ++ (' ' :: renderParams (kv2 :: rest))))) = _
    rw [hck, List.cons_append, scanParams_cons, ← List.cons_append, ← hck, hm]
    dsimp only
    rw [scanParams_space]
    rw [scanParams_render (kv2 :: rest) (fun x hx => h x (by simp [hx]))]
    rfl

theorem stripQuote_no_quotes (l : List Char) (h : ∀ c ∈ l, c ≠ quoteChar) :
    stripQuoteChars l = l := by
  unfold stripQuoteChars
  rw [dropWhile_all_false l (fun c hc => by simp [h c hc])]
  rw [dropWhile_all_false l.reverse (fun c hc => by simp [h c (List.mem_reverse.mp hc)])]
  exact List.reverse_reverse l

theorem stripQuote_quoted (s : List Char) (h : ∀ c ∈ s, c ≠ quoteChar) :
    stripQuoteChars (quoteChar :: s ++ [quoteChar]) = s := by
  unfold stripQuoteChars
  rw [List.cons_append, List.dropWhile_cons,
    if_pos (show ((quoteChar : Char) == quoteChar) = true from rfl)]
  cases s with
  | nil =>
    rfl
  | cons c s2 =>
    have hc : (c == quoteChar) = false := by simp [h c (by simp)]
    rw [List.cons_append, dropWhile_head_false c (s2 ++ [quoteChar]) hc,
      ← List.cons_append]
    rw [show ((c :: s2 ++ [quoteChar]).reverse) = quoteChar :: (c :: s2).reverse from by
      simp]
    rw [List.dropWhile_cons,
      if_pos (show ((quoteChar : Char) == quoteChar) = true from rfl)]
    rw [dropWhile_all_false (c :: s2).reverse
      (fun d hd => by simp [h d (List.mem_reverse.mp hd)])]
    exact List.reverse_reverse (c :: s2)

theorem foldl_dictInsert_nodup :
    ∀ (kvs acc : List (String × String)),
      ((acc ++ kvs).map Prod.fst).Nodup →
      List.foldl (fun m kv => dictInsert m kv.1 kv.2) acc kvs = acc ++ kvs
  | [], acc, _ => by simp
  | kv :: kvs, acc, h => by
    have h2 : (acc.map Prod.fst ++ kv.1 :: kvs.map Prod.fst).Nodup := by
      simpa using h
    have hd := List.disjoint_of_nodup_append h2
    have hmem : kv.1 ∉ acc.map Prod.fst := fun hmem => hd hmem (by simp)
    have hnotin : acc.any (fun p => p.1 == kv.1) = false := by
      by_contra hcon
      have hany : acc.any (fun p => p.1 == kv.1) = true := by
        cases hx : acc.any (fun p => p.1 == kv.1)
        · exact absurd hx hcon
        · rfl
      rw [List.any_eq_true] at hany
      obtain ⟨p, hp, hpe⟩ := hany
      rw [beq_iff_eq] at hpe
      exact hmem (List.mem_map.mpr ⟨p, hp, hpe⟩)
    simp only [List.foldl_cons]
    rw [show dictInsert acc kv.1 kv.2 = acc ++ [kv] from by
      unfold dictInsert
      rw [hnotin]
      rfl]
    rw [foldl_dictInsert_nodup kvs (acc ++ [kv]) (by simpa using h)]
    simp

theorem buildParams_nodup (kvs : List (String × String))
    (h : (kvs.map Prod.fst).Nodup) : buildParams kvs = kvs := by
  unfold buildParams
  rw [foldl_dictInsert_nodup kvs [] (by simpa using h)]
  rfl

theorem dropWhile_all_true {p : Char → Bool} :
    ∀ (xs : List Char), (∀ x ∈ xs, p x = true) → List.dropWhile p xs = []
  | [], _ => rfl
  | x :: xs, h => by
    rw [List.dropWhile_cons, if_pos (h x (by simp))]
    exact dropWhile_all_true xs (fun c hc => h c (by simp [hc]))

theorem rev_head_append (a b : List Char) (hb : b ≠ []) :
    (a ++ b).reverse.head? = b.reverse.head? := by
  rw [List.reverse_append]
  cases hr : b.reverse with
  | nil => exact absurd (by simpa using congrArg List.reverse hr) hb
  | cons x t => rfl

theorem stripQuote_render (v : ParamVal) (hv : goodVal v) :
    stripQuoteChars v.render = v.value := by
  cases v with
  | plain s => exact stripQuote_no_quotes s (fun c hc => (hv.2 c hc).2)
  | quoted s => exact stripQuote_quoted s (fun c hc => (hv c hc).1)

theorem renderParams_ne_nil :
    ∀ (kv : List Char × ParamVal) (rest : List (List Char × ParamVal)),
      kv.1 ≠ [] → renderParams (kv :: rest) ≠ []
  | kv, [], hk => by
    cases hkv : kv.1 with
    | nil => exact absurd hkv hk
    | cons c k2 => simp [renderParams, hkv]
  | kv, r :: rs, hk => by
    cases hkv : kv.1 with
    | nil => exact absurd hkv hk
    | cons c k2 => simp [renderParams, hkv]

theorem render_ne_nil (v : ParamVal) (hv : goodVal v) : v.render ≠ [] := by
  cases v with
  | plain s => exact hv.1
  | quoted s => simp [ParamVal.render]

theorem render_rev_head (v : ParamVal) (hv : goodVal v) :
    ∀ c, v.render.reverse.head? = some c → c.isWhitespace = false := by
  intro c hc
  cases v with
  | plain s =>
    cases hr : s.reverse with
    | nil => rw [show ParamVal.render (.plain s) = s from rfl, hr] at hc; cases hc
    | cons x t =>
      rw [show ParamVal.render (.plain s) = s from rfl, hr] at hc
      have hx : x ∈ s := List.mem_reverse.mp (by rw [hr]; simp)
      obtain rfl : x = c := by injection hc
      exact (hv.2 _ hx).1
  | quoted s =>
    have : ParamVal.render (.quoted s) = (quoteChar :: s) ++ [quoteChar] := by
      simp [ParamVal.render]
    rw [this, rev_head_append _ _ (by simp)] at hc
    obtain rfl : quoteChar = c := by injection hc
    decide

theorem renderParams_rev_head :
    ∀ (ps : List (List Char × ParamVal)),
      (∀ kv ∈ ps, goodKey kv.1 ∧ goodVal kv.2) → ps ≠ [] →
      ∀ c, (renderParams ps).reverse.head? = some c → c.isWhitespace = false
  | [], _, hne => absurd rfl hne
  | [kv], h, _ => by
    intro c hc
    obtain ⟨hk, hv⟩ := h kv (by simp)
    rw [show renderParams [kv] = kv.1 ++ ('=' :: kv.2.render) from rfl] at hc
    rw [rev_head_append _ _ (by simp)] at hc
    rw [show ('=' :: kv.2.render : List Char) = ['='] ++ kv.2.render from rfl] at hc
    rw [rev_head_append _ _ (render_ne_nil kv.2 hv)] at hc
    exact render_rev_head kv.2 hv c hc
  | kv :: r :: rs, h, _ => by
    intro c hc
    obtain ⟨hk, hv⟩ := h kv (by simp)
    have hrne : renderParams (r :: rs) ≠ [] :=
      renderParams_ne_nil r rs (h r (by simp)).1.1
    rw [show renderParams (kv :: r :: rs) =
      kv.1 ++ ('=' :: (kv.2.render ++ (' ' :: renderParams (r :: rs)))) from rfl] at hc
    rw [rev_head_append _ _ (by simp)] at hc
    rw [show ('=' :: (kv.2.render ++ (' ' :: renderParams (r :: rs))) : List Char) =
      ['='] ++ (kv.2.render ++ (' ' :: renderParams (r :: rs))) from rfl] at hc
    rw [rev_head_append _ _ (by simp)] at hc
    rw [rev_head_append _ _ (by simp)] at hc
    rw [show (' ' :: renderParams (r :: rs) : List Char) =
      [' '] ++ renderParams (r :: rs) from rfl] at hc
    rw [rev_head_append _ _ hrne] at hc
    exact renderParams_rev_head (r :: rs) (fun x hx => h x (by simp [hx])) (by simp) c hc

theorem cmdString_ne_nil (ct : CommandType) : (commandTypeString ct).data ≠ [] := by
  cases ct <;> decide

theorem cmdString_no_ws (ct : CommandType) :
    ∀ c ∈ (commandTypeString ct).data, c.isWhitespace = false := by
  cases ct <;> decide

theorem cmdString_no_hash (ct : CommandType) :
    ∀ c ∈ (commandTypeString ct).data, c ≠ '#' := by
  cases ct <;> decide

theorem commandTypeOfString_roundtrip (ct : CommandType) :
    commandTypeOfString (commandTypeString ct) = some ct := by
  cases ct <;> rfl

theorem head?_mem {c : Char} : ∀ {l : List Char}, l.head? = some c → c ∈ l
  | [], h => by cases h
  | x :: xs, h => by
    obtain rfl : x = c := by injection h
    simp

theorem typeTok_facts (typeTok : List Char) (ct : CommandType)
    (htok : typeTok.map Char.toUpper = (commandTypeString ct).data) :
    typeTok ≠ [] ∧ (∀ c ∈ typeTok, c.isWhitespace = false) ∧
      (∀ c ∈ typeTok, c ≠ '#') := by
  refine ⟨?_, ?_, ?_⟩
  · intro he
    rw [he] at htok
    exact cmdString_ne_nil ct (by simpa using htok.symm)
  · intro c hc
    cases hx : c.isWhitespace
    · rfl
    · have hmem : Char.toUpper c ∈ (commandTypeString ct).data := by
        rw [← htok]
        exact List.mem_map_of_mem _ hc
      have h1 := cmdString_no_ws ct _ hmem
      have h2 := toUpper_ws c hx
      rw [h1] at h2
      cases h2
  · intro c hc he
    subst he
    have hmem : Char.toUpper '#' ∈ (commandTypeString ct).data := by
      rw [← htok]
      exact List.mem_map_of_mem _ hc
    rw [show Char.toUpper '#' = '#' from by decide] at hmem
    exact cmdString_no_hash ct _ hmem rfl

theorem trim_of_ends (l : List Char)
    (h1 : ∀ c, l.head? = some c → c.isWhitespace = false)
    (h2 : ∀ c, l.reverse.head? = some c → c.isWhitespace = false) :
    trimChars l = l := by
  unfold trimChars
  rw [dropWhile_eq_self_of_head l h1]
  exact dropTrailing_eq_self l h2

theorem parsedParams_render (ps : List (List Char × ParamVal))
    (hgood : ∀ kv ∈ ps, goodKey kv.1 ∧ goodVal kv.2)
    (hnodup : (ps.map (fun kv => String.mk kv.1)).Nodup) :
    buildParams ((scanParams (renderParams ps)).map
      (fun kv => (String.mk kv.1, String.mk (stripQuoteChars kv.2)))) =
    ps.map (fun kv => (String.mk kv.1, String.mk kv.2.value)) := by
  rw [scanParams_render ps hgood, List.map_map]
  have hmap : ps.map ((fun kv => (String.mk kv.1, String.mk (stripQuoteChars kv.2))) ∘
      (fun kv => (kv.1, kv.2.render))) =
      ps.map (fun kv => (String.mk kv.1, String.mk kv.2.value)) := by
    apply List.map_congr_left
    intro kv hkv
    simp only [Function.comp]
    rw [stripQuote_render kv.2 (hgood kv hkv).2]
  rw [hmap]
  apply buildParams_nodup
  simpa [List.map_map, Function.comp] using hnodup

/-- Claim C8: the parser round-trips well-formed lines and rejects the
rest.  (i) For every line `TYPE k1=v1 k2="a b"` whose first token matches a
known command type case-insensitively, whose keys are distinct word-only
tokens and whose values are quote-free unquoted tokens or quoted strings,
`parse_line` returns a command of that type whose params are exactly the
written pairs with surrounding quotes removed and inner whitespace kept.
(ii) Whitespace-only lines, (iii) lines whose stripped text starts with
`#`, and (iv) lines whose first token matches no known command type yield
no command. -/
theorem claim_c8 :
    (∀ (aid : String) (n : Nat) (typeTok : List Char) (ct : CommandType)
       (ps : List (List Char × ParamVal)),
      typeTok.map Char.toUpper = (commandTypeString ct).data →
      (∀ kv ∈ ps, goodKey kv.1 ∧ goodVal kv.2) →
      (ps.map (fun kv => String.mk kv.1)).Nodup →
      parseLine aid (String.mk (renderLine typeTok ps)) n =
        some { commandType := ct, actionId := aid,
               params := ps.map (fun kv => (String.mk kv.1, String.mk kv.2.value)),
               rawText := String.mk (renderLine typeTok ps), lineNumber := n,
               severity := Severity.LOW }) ∧
    (∀ (aid : String) (n : Nat) (line : String),
      line.data.all Char.isWhitespace = true → parseLine aid line n = none) ∧
    (∀ (aid : String) (n : Nat) (line : String),
      (trimChars line.data).head? = some '#' → parseLine aid line n = none) ∧
    (∀ (aid : String) (n : Nat) (line : String),
      commandTypeOfString (String.mk (((trimChars line.data).takeWhile
        (fun c => !c.isWhitespace)).map Char.toUpper)) = none →
      parseLine aid line n = none) := by
  refine ⟨?_, ?_, ?_, ?_⟩
  · intro aid n typeTok ct ps htok hgood hnodup
    obtain ⟨htne, htws, hthash⟩ := typeTok_facts typeTok ct htok
    obtain ⟨t0, ts, rfl⟩ : ∃ t0 ts, typeTok = t0 :: ts := by
      cases typeTok with
      | nil => exact absurd rfl htne
      | cons a b => exact ⟨a, b, rfl⟩
    have hmkdata : String.mk ((t0 :: ts).map Char.toUpper) = commandTypeString ct := by
      rw [htok]
    cases ps with
    | nil =>
      have hrl : renderLine (t0 :: ts) [] = t0 :: ts := rfl
      rw [hrl]
      unfold parseLine
      dsimp only
      have hltrim : trimChars (t0 :: ts) = t0 :: ts :=
        trim_of_ends _ (fun c hc => htws c (head?_mem hc))
          (fun c hc => htws c (List.mem_reverse.mp (head?_mem hc)))
      rw [hltrim]
      rw [if_neg (show ¬(((t0 :: ts) : List Char).isEmpty = true) from by simp)]
      rw [if_neg (show ¬((((t0 :: ts) : List Char).head? == some '#') = true) from by
        simp [hthash t0 (by simp)])]
      have htk : List.takeWhile (fun c => !c.isWhitespace) (t0 :: ts) = t0 :: ts :=
        takeWhile_all _ (fun c hc => by simp [htws c hc])
      rw [htk, List.drop_length]
      rw [hmkdata, commandTypeOfString_roundtrip]
      rfl
    | cons kv0 ps2 =>
      have hkv0 := hgood kv0 (by simp)
      obtain ⟨c0, k2, hck⟩ : ∃ c0 k2, kv0.1 = c0 :: k2 := by
        cases hkv : kv0.1 with
        | nil => exact absurd hkv hkv0.1.1
        | cons a b => exact ⟨a, b, rfl⟩
      have hRne : renderParams (kv0 :: ps2) ≠ [] :=
        renderParams_ne_nil kv0 ps2 hkv0.1.1
      have hRheadWs : ∀ c, (renderParams (kv0 :: ps2)).head? = some c →
          c.isWhitespace = false := by
        intro c hc
        obtain ⟨X, hX⟩ : ∃ X, renderParams (kv0 :: ps2) = kv0.1 ++ X := by
          cases ps2 with
          | nil => exact ⟨_, rfl⟩
          | cons a b => exact ⟨_, rfl⟩
        rw [hX, hck, List.cons_append] at hc
        obtain rfl : c0 = c := by injection hc
        exact isWordChar_ne_ws _ (hkv0.1.2 _ (by rw [hck]; simp))
      have hrl : renderLine (t0 :: ts) (kv0 :: ps2) =
          (t0 :: ts) ++ (' ' :: renderParams (kv0 :: ps2)) := rfl
      rw [hrl]
      unfold parseLine
      dsimp only
      have hltrim : trimChars ((t0 :: ts) ++ (' ' :: renderParams (kv0 :: ps2))) =
          (t0 :: ts) ++ (' ' :: renderParams (kv0 :: ps2)) := by
        apply trim_of_ends
        · intro c hc
          rw [List.cons_append] at hc
          obtain rfl : t0 = c := by injection hc
          exact htws _ (by simp)
        · intro c hc
          rw [rev_head_append _ _ (by simp)] at hc
          rw [show ((' ' :: renderParams (kv0 :: ps2)) : List Char) =
            [' '] ++ renderParams (kv0 :: ps2) from rfl] at hc
          rw [rev_head_append _ _ hRne] at hc
          exact renderParams_rev_head (kv0 :: ps2) hgood (by simp) c hc
      rw [hltrim]
      rw [if_neg (show ¬((((t0 :: ts) ++ (' ' :: renderParams (kv0 :: ps2))
        : List Char)).isEmpty = true) from by simp)]
      rw [if_neg (show ¬(((((t0 :: ts) ++ (' ' :: renderParams (kv0 :: ps2)))
        : List Char).head? == some '#') = true) from by
        rw [List.cons_append]
        simp [hthash t0 (by simp)])]
      have htk : List.takeWhile (fun c => !c.isWhitespace)
          ((t0 :: ts) ++ (' ' :: renderParams (kv0 :: ps2))) = t0 :: ts := by
        rw [takeWhile_append_all _ _ (fun c hc => by simp [htws c hc])]
        rw [takeWhile_head_false ' ' _ (by decide), List.append_nil]
      rw [htk, List.drop_left]
      rw [show List.dropWhile Char.isWhitespace (' ' :: renderParams (kv0 :: ps2)) =
        List.dropWhile Char.isWhitespace (renderParams (kv0 :: ps2)) from by
        rw [List.dropWhile_cons]
        simp]
      rw [dropWhile_eq_self_of_head _ hRheadWs]
      rw [hmkdata, commandTypeOfString_roundtrip]
      dsimp only
      rw [parsedParams_render (kv0 :: ps2) hgood hnodup]
  · intro aid n line hws
    unfold parseLine
    dsimp only
    have h0 : trimChars line.data = [] := by
      unfold trimChars
      rw [dropWhile_all_true line.data
        (fun c hc => List.all_eq_true.mp hws c hc)]
      rfl
    rw [h0]
    rfl
  · intro aid n line hh
    unfold parseLine
    dsimp only
    have hne : ¬((trimChars line.data).isEmpty = true) := by
      cases hl : trimChars line.data with
      | nil => rw [hl] at hh; cases hh
      | cons a b => simp
    rw [if_neg hne]
    rw [if_pos (show ((trimChars line.data).head? == some '#') = true from by
      rw [hh]; rfl)]
  · intro aid n line hct
    unfold parseLine
    dsimp only
    by_cases h1 : (trimChars line.data).isEmpty = true
    · rw [if_pos h1]
    · rw [if_neg h1]
      by_cases h2 : ((trimChars line.data).head? == some '#') = true
      · rw [if_pos h2]
      · rw [if_neg h2]
        rw [hct]

/-- The parameters of the C8 witness line
`post_vimeo title="My Awesome Video" url=https://example.com/video.mp4`. -/
def c8wPs : List (List Char × ParamVal) :=
  [("title".data, ParamVal.quoted "My Awesome Video".data),
   ("url".data, ParamVal.plain "https://example.com/video.mp4".data)]

/-- Witness for C8: a lowercase-typed line with a quoted and an unquoted
parameter parses to the exact param map, and a whitespace-only line, a
comment line, and an unknown-type line each yield no command. -/
theorem claim_c8_witness :
    ("post_vimeo".data.map Char.toUpper =
      (commandTypeString CommandType.POST_VIMEO).data) ∧
    (∀ kv ∈ c8wPs, goodKey kv.1 ∧ goodVal kv.2) ∧
    (c8wPs.map (fun kv => String.mk kv.1)).Nodup ∧
    parseLine "aid-1" (String.mk (renderLine "post_vimeo".data c8wPs)) 3 =
      some { commandType := CommandType.POST_VIMEO, actionId := "aid-1",
             params := [("title", "My Awesome Video"),
                        ("url", "https://example.com/video.mp4")],
             rawText := String.mk (renderLine "post_vimeo".data c8wPs),
             lineNumber := 3, severity := Severity.LOW } ∧
    ("   ".data.all Char.isWhitespace = true) ∧
    parseLine "aid-2" "   " 4 = none ∧
    ((trimChars "# This is a comment".data).head? = some '#') ∧
    parseLine "aid-3" "# This is a comment" 5 = none ∧
    (commandTypeOfString (String.mk (((trimChars "INVALID_COMMAND".data).takeWhile
      (fun c => !c.isWhitespace)).map Char.toUpper)) = none) ∧
    parseLine "aid-4" "INVALID_COMMAND" 6 = none := by
  refine ⟨by decide, by decide, by decide,
    claim_c8.1 "aid-1" 3 "post_vimeo".data CommandType.POST_VIMEO c8wPs
      (by decide) (by decide) (by decide),
    by decide,
    claim_c8.2.1 "aid-2" 4 "   " (by decide),
    by decide,
    claim_c8.2.2.1 "aid-3" 5 "# This is a comment" (by decide),
    by decide,
    claim_c8.2.2.2 "aid-4" 6 "INVALID_COMMAND" (by decide)⟩

end AgentKit
